import Mathlib

/-!
Verification development for the tnef2mime repository.

The Rust sources (src/tnef2mime/src) are shallowly embedded: byte streams
become `List Nat` (each entry a byte value; numeric interpretation always
reduces modulo 256, mirroring the `u8` representation), fallible reads
become `Option`/`Except`, and machine integers become `Nat`/`Int` with
explicit `% 2 ^ w` where wrap-around matters.
-/

namespace Tnef2Mime

/-! ## Byte-stream primitives (src/tnef2mime/src/binread.rs)

The `BinaryReader` trait reads fixed-width little/big-endian integers from a
byte source. A reader over an in-memory buffer is modelled as the list of
bytes still unread; every read returns the value plus the remaining suffix,
`none` meaning the read hit end of input (an `UnexpectedEof` I/O error in the
source).
-/

/-- Little-endian value of a byte list (`from_le_bytes`); each byte is reduced
modulo 256 as in the `u8` representation. -/
def leNat : List Nat → Nat
  | [] => 0
  | b :: rest => b % 256 + 256 * leNat rest

/-- Big-endian value of a byte list (`from_be_bytes`). -/
def beNat : List Nat → Nat
  | [] => 0
  | b :: rest => (b % 256) * 256 ^ rest.length + beNat rest

/-- Read exactly `n` bytes (`read_exact`), returning them and the remaining
suffix; `none` on end of input. -/
def takeN (n : Nat) (l : List Nat) : Option (List Nat × List Nat) :=
  if n ≤ l.length then some (l.take n, l.drop n) else none

/-- Read one byte (`read_u8`). -/
def readU8 : List Nat → Option (Nat × List Nat)
  | [] => none
  | b :: rest => some (b % 256, rest)

/-- Read a little-endian `u16` (`read_u16_le`). -/
def readU16le (l : List Nat) : Option (Nat × List Nat) :=
  (takeN 2 l).map (fun p => (leNat p.1, p.2))

/-- Read a little-endian `u32` (`read_u32_le`). -/
def readU32le (l : List Nat) : Option (Nat × List Nat) :=
  (takeN 4 l).map (fun p => (leNat p.1, p.2))

/-- Read a little-endian `u64` (`read_u64_le`). -/
def readU64le (l : List Nat) : Option (Nat × List Nat) :=
  (takeN 8 l).map (fun p => (leNat p.1, p.2))

/-- Read a big-endian `u16` (`read_u16_be`). -/
def readU16be (l : List Nat) : Option (Nat × List Nat) :=
  (takeN 2 l).map (fun p => (beNat p.1, p.2))

/-- Reinterpret a `u16` value as `i16` (`read_i16_le`: `val as i16`). -/
def asI16 (u : Nat) : Int :=
  if u % 2 ^ 16 < 2 ^ 15 then (u % 2 ^ 16 : Nat) else (u % 2 ^ 16 : Nat) - 2 ^ 16

/-- Reinterpret a `u32` value as `i32` (`read_i32_le`: `val as i32`). -/
def asI32 (u : Nat) : Int :=
  if u % 2 ^ 32 < 2 ^ 31 then (u % 2 ^ 32 : Nat) else (u % 2 ^ 32 : Nat) - 2 ^ 32

/-- Reinterpret a `u64` value as `i64` (`read_i64_le`: `val as i64`). -/
def asI64 (u : Nat) : Int :=
  if u % 2 ^ 64 < 2 ^ 63 then (u % 2 ^ 64 : Nat) else (u % 2 ^ 64 : Nat) - 2 ^ 64

/-- Skip padding up to the next 4-byte boundary (`pad_to_4`): when
`bytesRead % 4 ≠ 0`, read and discard `4 - bytesRead % 4` bytes. -/
def padTo4 (bytesRead : Nat) (l : List Nat) : Option (List Nat) :=
  if bytesRead % 4 = 0 then some l
  else (takeN (4 - bytesRead % 4) l).map (fun p => p.2)

/-! ## PropType (src/tnef2mime/src/tnef/mod.rs, lines 43-76)

The `from_to_other` attribute on `PropType` (base type `u16`,
`derive_compare = "as_int"`) generates a total conversion from `u16` codes
(unknown codes become `Other(code)`), the inverse `to_base_type`, and
equality on the integer code.
-/

inductive PropType where
  | Unspecified
  | Null
  | Integer16
  | Integer32
  | Floating32
  | Floating64
  | Currency
  | FloatingTime
  | ErrorCode
  | Boolean
  | Object
  | Integer64
  | String8
  | String
  | Time
  | Guid
  | Binary
  | MultipleInteger16
  | MultipleInteger32
  | MultipleFloating32
  | MultipleFloating64
  | MultipleCurrency
  | MultipleFloatingTime
  | MultipleInteger64
  | MultipleString8
  | MultipleString
  | MultipleTime
  | MultipleGuid
  | MultipleBinary
  | Other (code : Nat)
deriving DecidableEq, Repr

/-- Total conversion from a 16-bit code to `PropType` (`from_base_type`,
generated by `from_to_other`): unknown codes map to `Other`. -/
def PropType.from_base_type (code : Nat) : PropType :=
  match code with
  | 0x0000 => .Unspecified
  | 0x0001 => .Null
  | 0x0002 => .Integer16
  | 0x0003 => .Integer32
  | 0x0004 => .Floating32
  | 0x0005 => .Floating64
  | 0x0006 => .Currency
  | 0x0007 => .FloatingTime
  | 0x000A => .ErrorCode
  | 0x000B => .Boolean
  | 0x000D => .Object
  | 0x0014 => .Integer64
  | 0x001E => .String8
  | 0x001F => .String
  | 0x0040 => .Time
  | 0x0048 => .Guid
  | 0x0102 => .Binary
  | 0x1002 => .MultipleInteger16
  | 0x1003 => .MultipleInteger32
  | 0x1004 => .MultipleFloating32
  | 0x1005 => .MultipleFloating64
  | 0x1006 => .MultipleCurrency
  | 0x1007 => .MultipleFloatingTime
  | 0x1014 => .MultipleInteger64
  | 0x101E => .MultipleString8
  | 0x101F => .MultipleString
  | 0x1040 => .MultipleTime
  | 0x1048 => .MultipleGuid
  | 0x1102 => .MultipleBinary
  | _ => .Other code

/-- Conversion from `PropType` back to its 16-bit code (`to_base_type`). -/
def PropType.to_base_type : PropType → Nat
  | .Unspecified => 0x0000
  | .Null => 0x0001
  | .Integer16 => 0x0002
  | .Integer32 => 0x0003
  | .Floating32 => 0x0004
  | .Floating64 => 0x0005
  | .Currency => 0x0006
  | .FloatingTime => 0x0007
  | .ErrorCode => 0x000A
  | .Boolean => 0x000B
  | .Object => 0x000D
  | .Integer64 => 0x0014
  | .String8 => 0x001E
  | .String => 0x001F
  | .Time => 0x0040
  | .Guid => 0x0048
  | .Binary => 0x0102
  | .MultipleInteger16 => 0x1002
  | .MultipleInteger32 => 0x1003
  | .MultipleFloating32 => 0x1004
  | .MultipleFloating64 => 0x1005
  | .MultipleCurrency => 0x1006
  | .MultipleFloatingTime => 0x1007
  | .MultipleInteger64 => 0x1014
  | .MultipleString8 => 0x101E
  | .MultipleString => 0x101F
  | .MultipleTime => 0x1040
  | .MultipleGuid => 0x1048
  | .MultipleBinary => 0x1102
  | .Other code => code

/-- Equality of `PropType` values as generated by
`derive_compare = "as_int"`: two values compare equal when their integer
codes agree. -/
def PropType.eqAsInt (a b : PropType) : Bool :=
  a.to_base_type == b.to_base_type

/-- Helper: converting any code to `PropType` and back is the identity. -/
theorem to_base_type_from_base_type (c : Nat) :
    (PropType.from_base_type c).to_base_type = c := by
  unfold PropType.from_base_type
  split <;> rfl

/-- C6: for every `PropType` variant `v`, `from_base_type (to_base_type v)`
equals `v` under the code-based equality generated by
`derive_compare = "as_int"`, and for every code `c` (named or not),
`to_base_type (from_base_type c) = c`. -/
theorem propType_round_trip :
    (∀ v : PropType, PropType.eqAsInt (PropType.from_base_type v.to_base_type) v = true) ∧
    (∀ c : Nat, (PropType.from_base_type c).to_base_type = c) := by
  refine ⟨fun v => ?_, to_base_type_from_base_type⟩
  simp [PropType.eqAsInt, to_base_type_from_base_type]

/-! ## Computation lemmas for the byte-stream primitives -/

theorem takeN_append (n : Nat) (a b : List Nat) (h : a.length = n) :
    takeN n (a ++ b) = some (a, b) := by
  subst h
  simp [takeN, List.take_left, List.drop_left]

theorem takeN_eq_some {n : Nat} {l a r : List Nat} (h : takeN n l = some (a, r)) :
    l = a ++ r ∧ a.length = n ∧ r.length = l.length - n := by
  unfold takeN at h
  split at h
  · rename_i hle
    injection h with h'
    obtain ⟨ha, hr⟩ := Prod.mk.injEq _ _ _ _ ▸ h'
    refine ⟨?_, ?_, ?_⟩
    · rw [← ha, ← hr]; exact (List.take_append_drop n l).symm
    · rw [← ha]; exact List.length_take_of_le hle
    · rw [← hr]; exact List.length_drop n l
  · exact absurd h (by simp)

theorem readU8_cons (b : Nat) (l : List Nat) : readU8 (b :: l) = some (b % 256, l) := rfl

theorem readU16le_append (a b : List Nat) (h : a.length = 2) :
    readU16le (a ++ b) = some (leNat a, b) := by
  simp [readU16le, takeN_append 2 a b h]

theorem readU32le_append (a b : List Nat) (h : a.length = 4) :
    readU32le (a ++ b) = some (leNat a, b) := by
  simp [readU32le, takeN_append 4 a b h]

theorem readU64le_append (a b : List Nat) (h : a.length = 8) :
    readU64le (a ++ b) = some (leNat a, b) := by
  simp [readU64le, takeN_append 8 a b h]

theorem readU16be_append (a b : List Nat) (h : a.length = 2) :
    readU16be (a ++ b) = some (beNat a, b) := by
  simp [readU16be, takeN_append 2 a b h]

theorem leNat_lt (l : List Nat) : leNat l < 256 ^ l.length := by
  induction l with
  | nil => simp [leNat]
  | cons b rest ih =>
    simp only [leNat, List.length_cons, pow_succ]
    have hb : b % 256 < 256 := Nat.mod_lt _ (by omega)
    calc b % 256 + 256 * leNat rest < 256 + 256 * leNat rest := by omega
      _ ≤ 256 * (leNat rest + 1) := by ring_nf; omega
      _ ≤ 256 * 256 ^ rest.length := by
          exact Nat.mul_le_mul_left 256 (Nat.succ_le_of_lt ih)
      _ = 256 ^ rest.length * 256 := by ring

/-! ## TNEF container reader (src/tnef2mime/src/tnef/mod.rs)

`TnefAttributeLevel` and `TnefAttributeId` are defined in the generated
module `tnef_enums.rs` (not present under src/); per spec §2.C both are
closed enums whose conversions from `u8`/`u32` are total and code-preserving
(unknown codes become an `Other` variant compared by code), so an attribute's
level and id are faithfully represented here by their integer codes.
`PropTag` (generated `prop_enums.rs`) is likewise represented by its 16-bit
code.
-/

/-- TNEF read error (`TnefReadError`). All I/O failures are collapsed into
`Io`; on an in-memory buffer the only I/O failure is unexpected end of
input. `InvalidString`/`InvalidStringId` carry the offending UTF-16 code
units (the accompanying `FromUtf16Error` has no further content).
`InvalidPropertyType` is constructed in `cfb_msg.rs` line 87 (its declaration
lives in the same enum). -/
inductive TnefReadError where
  | Io
  | Signature (expected obtained : Nat)
  | LengthConversion (obtained : Int)
  | ChecksumMismatch (obtained calculated : Nat)
  | InvalidIdType (obtained : Nat)
  | InvalidStringId (obtained : List Nat)
  | InvalidBoolean (obtained : Nat)
  | MultipleValuesSingleType (prop_type : PropType) (count : Nat)
  | InvalidString (obtained : List Nat)
  | OddStringLength (byte_length : Nat)
  | InvalidPropertyType (property_type : Nat)
deriving DecidableEq, Repr

/-- One TNEF attribute record (`TnefAttribute`); `level` and `id` are the
integer codes of `TnefAttributeLevel` / `TnefAttributeId`. -/
structure TnefAttribute where
  level : Nat
  id : Nat
  data : List Nat
  checksum : Nat
deriving DecidableEq, Repr

/-- Decoded TNEF stream (`TnefFile`). -/
structure TnefFile where
  legacy_key : Nat
  attributes : List TnefAttribute
deriving DecidableEq, Repr

def TNEF_SIGNATURE : Nat := 0x223E9F78

/-- Wrapping `u16` sum of the payload bytes, as computed by the checksum loop
in `read_tnef` (`my_checksum.wrapping_add(b.into())`). -/
def tnefChecksum (data : List Nat) : Nat :=
  data.foldl (fun acc b => (acc + b % 256) % 65536) 0

/-- Outcome of one iteration of the attribute loop: terminal EOF at the level
byte, a failure, or one complete and checksum-verified record. -/
inductive TnefStep where
  | eof
  | fail (e : TnefReadError)
  | record (level attribId : Nat) (dataBuf : List Nat) (checksum : Nat) (rest : List Nat)
deriving DecidableEq, Repr

/-- Payload and checksum part of one loop iteration: `length` payload bytes
were consumed into `dataBuf`; read the `u16` checksum and compare it against
the wrapping sum of the payload. -/
def readTnefAfterData (level attribId : Nat) (dataBuf r4 : List Nat) : TnefStep :=
  match readU16le r4 with
  | none => .fail .Io
  | some (checksum, r5) =>
    if checksum ≠ tnefChecksum dataBuf then
      .fail (.ChecksumMismatch checksum (tnefChecksum dataBuf))
    else .record level attribId dataBuf checksum r5

/-- Read the `length` payload bytes of one loop iteration. -/
def readTnefAfterLength (level attribId lengthU32 : Nat) (r3 : List Nat) : TnefStep :=
  match takeN lengthU32 r3 with
  | none => .fail .Io
  | some (dataBuf, r4) => readTnefAfterData level attribId dataBuf r4

/-- Read the `i32` length field of one loop iteration; a negative value fails
with `LengthConversion` (the failed `usize` conversion). -/
def readTnefAfterId (level attribId : Nat) (r2 : List Nat) : TnefStep :=
  match readU32le r2 with
  | none => .fail .Io
  | some (lengthU32, r3) =>
    if 2 ^ 31 ≤ lengthU32 then .fail (.LengthConversion (asI32 lengthU32))
    else readTnefAfterLength level attribId lengthU32 r3

/-- Read the `u32` attribute id of one loop iteration. -/
def readTnefAfterLevel (level : Nat) (r1 : List Nat) : TnefStep :=
  match readU32le r1 with
  | none => .fail .Io
  | some (attribId, r2) => readTnefAfterId level attribId r2

/-- Body of the attribute loop of `read_tnef` (mod.rs lines 181-225): `u8`
level (EOF here ends the stream), `u32` attribute id, `i32` length (fails
`LengthConversion` when negative), `length` payload bytes, `u16` checksum
compared against the wrapping sum of the payload. -/
def readTnefStep (input : List Nat) : TnefStep :=
  match readU8 input with
  | none => .eof
  | some (level, r1) => readTnefAfterLevel level r1

/-- Attribute loop of `read_tnef`. `fuel` bounds the number of remaining
iterations; every iteration consumes at least one input byte, so
`input.length + 1` fuel is always sufficient and the out-of-fuel branch is
unreachable (see `readTnefLoop_congr`). -/
def readTnefLoop : Nat → List Nat → Except TnefReadError (List TnefAttribute)
  | 0, _ => .error .Io
  | fuel + 1, input =>
    match readTnefStep input with
    | .eof => .ok []
    | .fail e => .error e
    | .record level attribId dataBuf checksum rest =>
      match readTnefLoop fuel rest with
      | .error e => .error e
      | .ok attrs => .ok (⟨level, attribId, dataBuf, checksum⟩ :: attrs)

/-- Attribute loop at its canonical (always sufficient) fuel. -/
def readTnefAttributes (input : List Nat) : Except TnefReadError (List TnefAttribute) :=
  readTnefLoop (input.length + 1) input

/-- Reader for a whole TNEF stream (`read_tnef`): `u32` signature check,
`u16` legacy key, then the attribute loop. -/
def read_tnef (input : List Nat) : Except TnefReadError TnefFile :=
  match readU32le input with
  | none => .error .Io
  | some (signature, r1) =>
    if signature ≠ TNEF_SIGNATURE then
      .error (.Signature TNEF_SIGNATURE signature)
    else
      match readU16le r1 with
      | none => .error .Io
      | some (legacyKey, r2) =>
        match readTnefAttributes r2 with
        | .error e => .error e
        | .ok attrs => .ok ⟨legacyKey, attrs⟩

theorem takeN_suffix {n : Nat} {l a r : List Nat} (h : takeN n l = some (a, r)) :
    r.length + n = l.length := by
  obtain ⟨hl, ha, _⟩ := takeN_eq_some h
  rw [hl, List.length_append, ha]
  omega

theorem readU8_suffix {l : List Nat} {v : Nat} {r : List Nat}
    (h : readU8 l = some (v, r)) : r.length + 1 = l.length := by
  cases l with
  | nil => simp [readU8] at h
  | cons b rest =>
    simp only [readU8, Option.some.injEq, Prod.mk.injEq] at h
    simp [← h.2]

theorem readU16le_suffix {l : List Nat} {v : Nat} {r : List Nat}
    (h : readU16le l = some (v, r)) : r.length + 2 = l.length := by
  simp only [readU16le, Option.map_eq_some', Prod.mk.injEq] at h
  obtain ⟨⟨a, r'⟩, htk, _, hr⟩ := h
  have hr' : r' = r := hr
  subst hr'
  have := takeN_suffix htk
  omega

theorem readU32le_suffix {l : List Nat} {v : Nat} {r : List Nat}
    (h : readU32le l = some (v, r)) : r.length + 4 = l.length := by
  simp only [readU32le, Option.map_eq_some', Prod.mk.injEq] at h
  obtain ⟨⟨a, r'⟩, htk, _, hr⟩ := h
  have hr' : r' = r := hr
  subst hr'
  have := takeN_suffix htk
  omega

theorem readU64le_suffix {l : List Nat} {v : Nat} {r : List Nat}
    (h : readU64le l = some (v, r)) : r.length + 8 = l.length := by
  simp only [readU64le, Option.map_eq_some', Prod.mk.injEq] at h
  obtain ⟨⟨a, r'⟩, htk, _, hr⟩ := h
  have hr' : r' = r := hr
  subst hr'
  have := takeN_suffix htk
  omega

theorem readU16be_suffix {l : List Nat} {v : Nat} {r : List Nat}
    (h : readU16be l = some (v, r)) : r.length + 2 = l.length := by
  simp only [readU16be, Option.map_eq_some', Prod.mk.injEq] at h
  obtain ⟨⟨a, r'⟩, htk, _, hr⟩ := h
  have hr' : r' = r := hr
  subst hr'
  have := takeN_suffix htk
  omega

theorem readTnefAfterData_length {level attribId : Nat} {dataBuf r4 : List Nat}
    {l a : Nat} {d : List Nat} {c : Nat} {rest : List Nat}
    (h : readTnefAfterData level attribId dataBuf r4 = .record l a d c rest) :
    rest.length ≤ r4.length := by
  unfold readTnefAfterData at h
  cases h16 : readU16le r4 with
  | none => rw [h16] at h; exact absurd h (by simp)
  | some p =>
    obtain ⟨checksum, r5⟩ := p
    rw [h16] at h
    simp only at h
    split at h
    · exact absurd h (by simp)
    · simp only [TnefStep.record.injEq] at h
      obtain ⟨-, -, -, -, hrest⟩ := h
      subst hrest
      have := readU16le_suffix h16
      omega

theorem readTnefAfterLength_length {level attribId lengthU32 : Nat} {r3 : List Nat}
    {l a : Nat} {d : List Nat} {c : Nat} {rest : List Nat}
    (h : readTnefAfterLength level attribId lengthU32 r3 = .record l a d c rest) :
    rest.length ≤ r3.length := by
  unfold readTnefAfterLength at h
  cases htk : takeN lengthU32 r3 with
  | none => rw [htk] at h; exact absurd h (by simp)
  | some p =>
    obtain ⟨dataBuf, r4⟩ := p
    rw [htk] at h
    simp only at h
    have h1 := readTnefAfterData_length h
    have h2 := takeN_suffix htk
    omega

theorem readTnefAfterId_length {level attribId : Nat} {r2 : List Nat}
    {l a : Nat} {d : List Nat} {c : Nat} {rest : List Nat}
    (h : readTnefAfterId level attribId r2 = .record l a d c rest) :
    rest.length ≤ r2.length := by
  unfold readTnefAfterId at h
  cases h32 : readU32le r2 with
  | none => rw [h32] at h; exact absurd h (by simp)
  | some p =>
    obtain ⟨lengthU32, r3⟩ := p
    rw [h32] at h
    simp only at h
    split at h
    · exact absurd h (by simp)
    · have h1 := readTnefAfterLength_length h
      have h2 := readU32le_suffix h32
      omega

theorem readTnefAfterLevel_length {level : Nat} {r1 : List Nat}
    {l a : Nat} {d : List Nat} {c : Nat} {rest : List Nat}
    (h : readTnefAfterLevel level r1 = .record l a d c rest) :
    rest.length ≤ r1.length := by
  unfold readTnefAfterLevel at h
  cases h32 : readU32le r1 with
  | none => rw [h32] at h; exact absurd h (by simp)
  | some p =>
    obtain ⟨attribId, r2⟩ := p
    rw [h32] at h
    simp only at h
    have h1 := readTnefAfterId_length h
    have h2 := readU32le_suffix h32
    omega

/-- A complete record leaves a strictly shorter remainder: the level byte, the
two `u32` fields, the payload and the checksum have been consumed. -/
theorem readTnefStep_length {input : List Nat} {level attribId : Nat}
    {dataBuf : List Nat} {checksum : Nat} {rest : List Nat}
    (h : readTnefStep input = .record level attribId dataBuf checksum rest) :
    rest.length < input.length := by
  unfold readTnefStep at h
  cases hu8 : readU8 input with
  | none => rw [hu8] at h; exact absurd h (by simp)
  | some p =>
    obtain ⟨level', r1⟩ := p
    rw [hu8] at h
    simp only at h
    have h1 := readTnefAfterLevel_length h
    have h2 := readU8_suffix hu8
    omega

/-- Fuel irrelevance: any fuel beyond the input length gives the same result,
so `readTnefAttributes` computes the limit of the loop. -/
theorem readTnefLoop_congr :
    ∀ f1 f2 : Nat, ∀ input : List Nat, input.length < f1 → input.length < f2 →
      readTnefLoop f1 input = readTnefLoop f2 input := by
  intro f1
  induction f1 with
  | zero => intro f2 input h1 _; omega
  | succ g1 ih =>
    intro f2 input h1 h2
    obtain ⟨g2, rfl⟩ : ∃ g2, f2 = g2 + 1 := ⟨f2 - 1, by omega⟩
    show readTnefLoop (g1 + 1) input = readTnefLoop (g2 + 1) input
    unfold readTnefLoop
    cases hstep : readTnefStep input with
    | eof => rfl
    | fail e => rfl
    | record level attribId dataBuf checksum rest =>
      have hlen := readTnefStep_length hstep
      simp only [ih g2 rest (by omega) (by omega)]

theorem takeN_none {n : Nat} {l : List Nat} (h : l.length < n) : takeN n l = none := by
  unfold takeN
  rw [if_neg (by omega)]

theorem takeN_some {n : Nat} {l : List Nat} (h : n ≤ l.length) :
    takeN n l = some (l.take n, l.drop n) := by
  unfold takeN
  rw [if_pos h]

theorem readU16le_none {l : List Nat} (h : l.length < 2) : readU16le l = none := by
  simp [readU16le, takeN_none h]

theorem readU16le_some {l : List Nat} (h : 2 ≤ l.length) :
    readU16le l = some (leNat (l.take 2), l.drop 2) := by
  simp [readU16le, takeN_some h]

theorem readU32le_none {l : List Nat} (h : l.length < 4) : readU32le l = none := by
  simp [readU32le, takeN_none h]

theorem readU32le_some {l : List Nat} (h : 4 ≤ l.length) :
    readU32le l = some (leNat (l.take 4), l.drop 4) := by
  simp [readU32le, takeN_some h]

theorem readU8_eq_some {l : List Nat} {v : Nat} {r : List Nat}
    (h : readU8 l = some (v, r)) : ∃ b, l = b :: r ∧ b % 256 = v := by
  cases l with
  | nil => simp [readU8] at h
  | cons b rest =>
    simp only [readU8, Option.some.injEq, Prod.mk.injEq] at h
    exact ⟨b, by rw [h.2], h.1⟩

theorem readU16le_eq_some {l : List Nat} {v : Nat} {r : List Nat}
    (h : readU16le l = some (v, r)) :
    ∃ a, l = a ++ r ∧ a.length = 2 ∧ leNat a = v := by
  simp only [readU16le, Option.map_eq_some', Prod.mk.injEq] at h
  obtain ⟨⟨a, r'⟩, htk, hv, hr⟩ := h
  have hv' : leNat a = v := hv
  have hr' : r' = r := hr
  subst hr'
  obtain ⟨hl, ha, _⟩ := takeN_eq_some htk
  exact ⟨a, hl, ha, hv'⟩

theorem readU32le_eq_some {l : List Nat} {v : Nat} {r : List Nat}
    (h : readU32le l = some (v, r)) :
    ∃ a, l = a ++ r ∧ a.length = 4 ∧ leNat a = v := by
  simp only [readU32le, Option.map_eq_some', Prod.mk.injEq] at h
  obtain ⟨⟨a, r'⟩, htk, hv, hr⟩ := h
  have hv' : leNat a = v := hv
  have hr' : r' = r := hr
  subst hr'
  obtain ⟨hl, ha, _⟩ := takeN_eq_some htk
  exact ⟨a, hl, ha, hv'⟩

/-! ### One-step computation of the attribute loop body on framed records -/

theorem readTnefStep_cons (b : Nat) (l : List Nat) :
    readTnefStep (b :: l) = readTnefAfterLevel (b % 256) l := rfl

theorem readTnefAfterLevel_append (level : Nat) (idb r : List Nat)
    (h : idb.length = 4) :
    readTnefAfterLevel level (idb ++ r) = readTnefAfterId level (leNat idb) r := by
  unfold readTnefAfterLevel
  rw [readU32le_append _ _ h]

theorem readTnefAfterId_append (level attribId : Nat) (lenb r : List Nat)
    (h : lenb.length = 4) (hsmall : leNat lenb < 2 ^ 31) :
    readTnefAfterId level attribId (lenb ++ r) =
      readTnefAfterLength level attribId (leNat lenb) r := by
  unfold readTnefAfterId
  rw [readU32le_append _ _ h]
  show (if 2 ^ 31 ≤ leNat lenb then
          TnefStep.fail (TnefReadError.LengthConversion (asI32 (leNat lenb)))
        else readTnefAfterLength level attribId (leNat lenb) r) =
    readTnefAfterLength level attribId (leNat lenb) r
  rw [if_neg (by omega)]

theorem readTnefAfterLength_append (level attribId : Nat) (payload r : List Nat) :
    readTnefAfterLength level attribId payload.length (payload ++ r) =
      readTnefAfterData level attribId payload r := by
  unfold readTnefAfterLength
  rw [takeN_append payload.length payload r rfl]

theorem readTnefAfterData_append (level attribId : Nat) (payload ckb rest : List Nat)
    (h : ckb.length = 2) :
    readTnefAfterData level attribId payload (ckb ++ rest) =
      if leNat ckb = tnefChecksum payload
      then .record level attribId payload (leNat ckb) rest
      else .fail (.ChecksumMismatch (leNat ckb) (tnefChecksum payload)) := by
  unfold readTnefAfterData
  rw [readU16le_append _ _ h]
  show (if leNat ckb ≠ tnefChecksum payload then
          TnefStep.fail (TnefReadError.ChecksumMismatch (leNat ckb) (tnefChecksum payload))
        else TnefStep.record level attribId payload (leNat ckb) rest) = _
  by_cases hck : leNat ckb = tnefChecksum payload
  · rw [if_neg (not_not_intro hck), if_pos hck]
  · rw [if_pos hck, if_neg hck]

/-- The loop body on one completely framed record: checksum match yields the
record, mismatch fails with `ChecksumMismatch`. -/
theorem readTnefStep_record (level : Nat) (idb lenb payload ckb rest : List Nat)
    (hidlen : idb.length = 4) (hlenlen : lenb.length = 4) (hcklen : ckb.length = 2)
    (hlen : leNat lenb = payload.length) (hsmall : payload.length < 2 ^ 31) :
    readTnefStep (level :: (idb ++ (lenb ++ (payload ++ (ckb ++ rest))))) =
      if leNat ckb = tnefChecksum payload
      then .record (level % 256) (leNat idb) payload (leNat ckb) rest
      else .fail (.ChecksumMismatch (leNat ckb) (tnefChecksum payload)) := by
  rw [readTnefStep_cons, readTnefAfterLevel_append _ _ _ hidlen,
    readTnefAfterId_append _ _ _ _ hlenlen (by omega), hlen,
    readTnefAfterLength_append, readTnefAfterData_append _ _ _ _ _ hcklen]

/-- Inversion: a successful loop-body step decomposes the input into the
record's frame. -/
theorem readTnefStep_record_inv {input : List Nat} {level attribId : Nat}
    {dataBuf : List Nat} {checksum : Nat} {rest : List Nat}
    (h : readTnefStep input = .record level attribId dataBuf checksum rest) :
    ∃ b idb lenb ckb, input = b :: (idb ++ (lenb ++ (dataBuf ++ (ckb ++ rest)))) ∧
      b % 256 = level ∧ idb.length = 4 ∧ lenb.length = 4 ∧ ckb.length = 2 ∧
      leNat idb = attribId ∧ leNat lenb = dataBuf.length ∧ leNat ckb = checksum ∧
      dataBuf.length < 2 ^ 31 ∧ checksum = tnefChecksum dataBuf := by
  unfold readTnefStep at h
  cases hu8 : readU8 input with
  | none => rw [hu8] at h; exact absurd h (by simp)
  | some p =>
    obtain ⟨level', r1⟩ := p
    rw [hu8] at h
    simp only at h
    obtain ⟨b, hinput, hlevel⟩ := readU8_eq_some hu8
    unfold readTnefAfterLevel at h
    cases h32 : readU32le r1 with
    | none => rw [h32] at h; exact absurd h (by simp)
    | some p =>
      obtain ⟨attribId', r2⟩ := p
      rw [h32] at h
      simp only at h
      obtain ⟨idb, hr1, hidlen, hidval⟩ := readU32le_eq_some h32
      unfold readTnefAfterId at h
      cases h32b : readU32le r2 with
      | none => rw [h32b] at h; exact absurd h (by simp)
      | some p =>
        obtain ⟨lengthU32, r3⟩ := p
        rw [h32b] at h
        simp only at h
        obtain ⟨lenb, hr2, hlenlen, hlenval⟩ := readU32le_eq_some h32b
        split at h
        · exact absurd h (by simp)
        · rename_i hsmall
          unfold readTnefAfterLength at h
          cases htk : takeN lengthU32 r3 with
          | none => rw [htk] at h; exact absurd h (by simp)
          | some p =>
            obtain ⟨dataBuf', r4⟩ := p
            rw [htk] at h
            simp only at h
            obtain ⟨hr3, hdblen, _⟩ := takeN_eq_some htk
            unfold readTnefAfterData at h
            cases h16 : readU16le r4 with
            | none => rw [h16] at h; exact absurd h (by simp)
            | some p =>
              obtain ⟨checksum', r5⟩ := p
              rw [h16] at h
              simp only at h
              obtain ⟨ckb, hr4, hcklen, hckval⟩ := readU16le_eq_some h16
              split at h
              · exact absurd h (by simp)
              · rename_i hckok
                simp only [TnefStep.record.injEq] at h
                obtain ⟨hl, ha, hd, hc, hr⟩ := h
                subst hl; subst ha; subst hd; subst hc; subst hr
                refine ⟨b, idb, lenb, ckb, ?_, hlevel, hidlen, hlenlen, hcklen,
                  hidval, ?_, hckval, ?_, ?_⟩
                · rw [hinput, hr1, hr2, hr3, hr4]
                · omega
                · omega
                · omega

/-! ### Loop-level computation lemmas -/

/-- One unfolding of the attribute loop at canonical fuel. -/
theorem readTnefAttributes_eq (input : List Nat) :
    readTnefAttributes input =
      match readTnefStep input with
      | .eof => .ok []
      | .fail e => .error e
      | .record level attribId dataBuf checksum rest =>
        match readTnefAttributes rest with
        | .error e => .error e
        | .ok attrs => .ok (⟨level, attribId, dataBuf, checksum⟩ :: attrs) := by
  show readTnefLoop (input.length + 1) input = _
  cases hstep : readTnefStep input with
  | eof => simp only [readTnefLoop, hstep]
  | fail e => simp only [readTnefLoop, hstep]
  | record l a d c rest =>
    have hlen := readTnefStep_length hstep
    simp only [readTnefLoop, hstep]
    rw [readTnefLoop_congr input.length (rest.length + 1) rest (by omega) (by omega)]
    rfl

/-- Parsing one completely framed record prepends exactly one attribute (on a
checksum match) or aborts with `ChecksumMismatch`. -/
theorem readTnefAttributes_record (level : Nat) (idb lenb payload ckb rest : List Nat)
    (hidlen : idb.length = 4) (hlenlen : lenb.length = 4) (hcklen : ckb.length = 2)
    (hlen : leNat lenb = payload.length) (hsmall : payload.length < 2 ^ 31) :
    readTnefAttributes (level :: (idb ++ (lenb ++ (payload ++ (ckb ++ rest))))) =
      if leNat ckb = tnefChecksum payload then
        match readTnefAttributes rest with
        | .error e => .error e
        | .ok attrs => .ok (⟨level % 256, leNat idb, payload, leNat ckb⟩ :: attrs)
      else .error (.ChecksumMismatch (leNat ckb) (tnefChecksum payload)) := by
  rw [readTnefAttributes_eq,
    readTnefStep_record _ _ _ _ _ _ hidlen hlenlen hcklen hlen hsmall]
  by_cases hck : leNat ckb = tnefChecksum payload
  · rw [if_pos hck, if_pos hck]
  · rw [if_neg hck, if_neg hck]

/-- Only an empty input makes the loop body report terminal EOF. -/
theorem readTnefStep_eof {input : List Nat} (h : readTnefStep input = .eof) :
    input = [] := by
  cases input with
  | nil => rfl
  | cons b l =>
    exfalso
    rw [readTnefStep_cons] at h
    unfold readTnefAfterLevel at h
    cases h32 : readU32le l with
    | none => rw [h32] at h; exact absurd h (by simp)
    | some p =>
      obtain ⟨attribId, r2⟩ := p
      rw [h32] at h
      simp only at h
      unfold readTnefAfterId at h
      cases h32b : readU32le r2 with
      | none => rw [h32b] at h; exact absurd h (by simp)
      | some p =>
        obtain ⟨lengthU32, r3⟩ := p
        rw [h32b] at h
        simp only at h
        split at h
        · exact absurd h (by simp)
        · unfold readTnefAfterLength at h
          cases htk : takeN lengthU32 r3 with
          | none => rw [htk] at h; exact absurd h (by simp)
          | some p =>
            obtain ⟨dataBuf, r4⟩ := p
            rw [htk] at h
            simp only at h
            unfold readTnefAfterData at h
            cases h16 : readU16le r4 with
            | none => rw [h16] at h; exact absurd h (by simp)
            | some p =>
              obtain ⟨checksum, r5⟩ := p
              rw [h16] at h
              simp only at h
              split at h
              · exact absurd h (by simp)
              · exact absurd h (by simp)

/-- The little-endian value of the length field of the record starting at the
head of `data` (bytes 5..9, after the level byte and the attribute id). -/
def lenFieldOf (data : List Nat) : Nat := leNat ((data.drop 5).take 4)

/-- The loop body fails with `Io` whenever the input ends inside a record:
inside the id or length fields (fewer than 9 bytes), inside the payload, or
inside the checksum. -/
theorem readTnefStep_truncated (data : List Nat) (hne : data ≠ [])
    (htrunc : data.length < 9 ∨
      (lenFieldOf data < 2 ^ 31 ∧ data.length < 11 + lenFieldOf data)) :
    readTnefStep data = .fail .Io := by
  obtain ⟨b, l, rfl⟩ : ∃ b l, data = b :: l := by
    cases data with
    | nil => exact absurd rfl hne
    | cons b l => exact ⟨b, l, rfl⟩
  rw [readTnefStep_cons]
  by_cases h4 : l.length < 4
  · unfold readTnefAfterLevel
    rw [readU32le_none h4]
  · rw [show l = l.take 4 ++ l.drop 4 from (List.take_append_drop 4 l).symm,
      readTnefAfterLevel_append _ _ _ (by simp [List.length_take]; omega)]
    by_cases h8 : l.length < 8
    · unfold readTnefAfterId
      rw [readU32le_none (by simp [List.length_drop]; omega)]
    · have hlenf : lenFieldOf (b :: l) = leNat ((l.drop 4).take 4) := rfl
      obtain htr | ⟨hsm, hlt⟩ := htrunc
      · simp only [List.length_cons] at htr
        omega
      · rw [hlenf] at hsm hlt
        simp only [List.length_cons] at hlt
        rw [show l.drop 4 = (l.drop 4).take 4 ++ (l.drop 4).drop 4 from
            (List.take_append_drop 4 (l.drop 4)).symm,
          readTnefAfterId_append _ _ _ _ (by simp [List.length_take, List.length_drop]; omega)
            hsm]
        rw [show (l.drop 4).drop 4 = l.drop 8 from by
          rw [List.drop_drop]]
        unfold readTnefAfterLength
        by_cases hpay : (l.drop 8).length < leNat ((l.drop 4).take 4)
        · rw [takeN_none hpay]
        · rw [takeN_some (by omega)]
          show readTnefAfterData (b % 256) (leNat (l.take 4))
              ((l.drop 8).take (leNat ((l.drop 4).take 4)))
              ((l.drop 8).drop (leNat ((l.drop 4).take 4))) =
            TnefStep.fail TnefReadError.Io
          unfold readTnefAfterData
          rw [readU16le_none (by simp [List.length_drop]; omega)]

/-! ### The record grammar and the main TNEF theorems -/

/-- Grammar of byte streams that are a concatenation of complete, well-formed
TNEF attribute records (the input ends exactly at a record boundary and every
checksum matches). -/
inductive CleanRecords : List Nat → Prop where
  | nil : CleanRecords []
  | cons (level : Nat) (idb lenb payload ckb rest : List Nat)
      (hidlen : idb.length = 4) (hlenlen : lenb.length = 4) (hcklen : ckb.length = 2)
      (hlen : leNat lenb = payload.length) (hsmall : payload.length < 2 ^ 31)
      (hck : leNat ckb = tnefChecksum payload)
      (hrest : CleanRecords rest) :
      CleanRecords (level :: (idb ++ (lenb ++ (payload ++ (ckb ++ rest)))))

/-- Grammar of byte streams consisting of zero or more complete records
followed by a nonempty record fragment that ends mid-record: within the
attribute id or length fields, inside the payload, or inside the checksum. -/
inductive MidRecordEOF : List Nat → Prop where
  | here (data : List Nat) (hne : data ≠ [])
      (htrunc : data.length < 9 ∨
        (lenFieldOf data < 2 ^ 31 ∧ data.length < 11 + lenFieldOf data)) :
      MidRecordEOF data
  | later (level : Nat) (idb lenb payload ckb rest : List Nat)
      (hidlen : idb.length = 4) (hlenlen : lenb.length = 4) (hcklen : ckb.length = 2)
      (hlen : leNat lenb = payload.length) (hsmall : payload.length < 2 ^ 31)
      (hck : leNat ckb = tnefChecksum payload)
      (hrest : MidRecordEOF rest) :
      MidRecordEOF (level :: (idb ++ (lenb ++ (payload ++ (ckb ++ rest)))))

/-- The attribute loop succeeds exactly on inputs generated by the clean
record grammar. -/
theorem readTnefAttributes_ok_iff (input : List Nat) :
    (∃ attrs, readTnefAttributes input = .ok attrs) ↔ CleanRecords input := by
  constructor
  · have main : ∀ n (inp : List Nat), inp.length = n →
        (∃ attrs, readTnefAttributes inp = .ok attrs) → CleanRecords inp := by
      intro n
      induction n using Nat.strong_induction_on with
      | _ n ih =>
        intro inp hlen h
        obtain ⟨attrs, hok⟩ := h
        rw [readTnefAttributes_eq] at hok
        cases hstep : readTnefStep inp with
        | eof => rw [readTnefStep_eof hstep]; exact CleanRecords.nil
        | fail e => rw [hstep] at hok; exact absurd hok (by simp)
        | record level attribId dataBuf checksum rest =>
          rw [hstep] at hok
          simp only at hok
          obtain ⟨b, idb, lenb, ckb, hin, hlevel, hidlen, hlenlen, hcklen, hidval,
            hlenval, hckval, hsmall, hckeq⟩ := readTnefStep_record_inv hstep
          cases hrest : readTnefAttributes rest with
          | error e => rw [hrest] at hok; exact absurd hok (by simp)
          | ok attrs2 =>
            have hlt : rest.length < inp.length := readTnefStep_length hstep
            have hcr : CleanRecords rest :=
              ih rest.length (by omega) rest rfl ⟨attrs2, hrest⟩
            rw [hin]
            exact CleanRecords.cons b idb lenb dataBuf ckb rest hidlen hlenlen hcklen
              hlenval hsmall (by omega) hcr
    exact main input.length input rfl
  · intro h
    induction h with
    | nil => exact ⟨[], rfl⟩
    | cons level idb lenb payload ckb rest hidlen hlenlen hcklen hlen hsmall hck hrest ih =>
      obtain ⟨attrs, ha⟩ := ih
      rw [readTnefAttributes_record _ _ _ _ _ _ hidlen hlenlen hcklen hlen hsmall,
        if_pos hck, ha]
      exact ⟨_, rfl⟩

/-- End-of-input in the middle of a record surfaces as an `Io` error. -/
theorem midRecordEOF_io {input : List Nat} (h : MidRecordEOF input) :
    readTnefAttributes input = .error .Io := by
  induction h with
  | here data hne htrunc =>
    rw [readTnefAttributes_eq, readTnefStep_truncated data hne htrunc]
  | later level idb lenb payload ckb rest hidlen hlenlen hcklen hlen hsmall hck hrest ih =>
    rw [readTnefAttributes_record _ _ _ _ _ _ hidlen hlenlen hcklen hlen hsmall,
      if_pos hck, ih]

/-- Computation of `read_tnef` past the signature and the legacy key. -/
theorem read_tnef_eq (k0 k1 : Nat) (body : List Nat) :
    read_tnef (0x78 :: 0x9F :: 0x3E :: 0x22 :: k0 :: k1 :: body) =
      match readTnefAttributes body with
      | .error e => .error e
      | .ok attrs => .ok ⟨leNat [k0, k1], attrs⟩ := by
  unfold read_tnef
  have h1 : readU32le (0x78 :: 0x9F :: 0x3E :: 0x22 :: k0 :: k1 :: body) =
      some (TNEF_SIGNATURE, k0 :: k1 :: body) := by
    rw [show (0x78 :: 0x9F :: 0x3E :: 0x22 :: k0 :: k1 :: body) =
        [0x78, 0x9F, 0x3E, 0x22] ++ (k0 :: k1 :: body) from rfl,
      readU32le_append [0x78, 0x9F, 0x3E, 0x22] (k0 :: k1 :: body) (by simp)]
    norm_num [leNat, TNEF_SIGNATURE]
  rw [h1]
  have h2 : readU16le (k0 :: k1 :: body) = some (leNat [k0, k1], body) := by
    rw [show (k0 :: k1 :: body) = [k0, k1] ++ body from rfl,
      readU16le_append [k0, k1] body (by simp)]
  show (if TNEF_SIGNATURE ≠ TNEF_SIGNATURE then
          Except.error (TnefReadError.Signature TNEF_SIGNATURE TNEF_SIGNATURE)
        else
          match readU16le (k0 :: k1 :: body) with
          | none => Except.error TnefReadError.Io
          | some (legacyKey, r2) =>
            match readTnefAttributes r2 with
            | Except.error e => Except.error e
            | Except.ok attrs => Except.ok (TnefFile.mk legacyKey attrs)) =
      match readTnefAttributes body with
      | Except.error e => Except.error e
      | Except.ok attrs => Except.ok (TnefFile.mk (leNat [k0, k1]) attrs)
  rw [if_neg (by simp), h2]

/-- C1: `read_tnef` accepts an attribute record iff the trailing `u16`
checksum equals the wrapping 16-bit sum of the payload bytes: on mismatch it
fails with `ChecksumMismatch` carrying the obtained and the calculated value;
on match the attribute is appended with its checksum field equal to that sum
and parsing continues with the rest of the stream. -/
theorem read_tnef_checksum (k0 k1 level : Nat) (idb lenb payload ckb rest : List Nat)
    (hidlen : idb.length = 4) (hlenlen : lenb.length = 4) (hcklen : ckb.length = 2)
    (hlen : leNat lenb = payload.length) (hsmall : payload.length < 2 ^ 31) :
    (leNat ckb ≠ tnefChecksum payload →
      read_tnef (0x78 :: 0x9F :: 0x3E :: 0x22 :: k0 :: k1 ::
          (level :: (idb ++ (lenb ++ (payload ++ (ckb ++ rest)))))) =
        .error (.ChecksumMismatch (leNat ckb) (tnefChecksum payload))) ∧
    (leNat ckb = tnefChecksum payload →
      read_tnef (0x78 :: 0x9F :: 0x3E :: 0x22 :: k0 :: k1 ::
          (level :: (idb ++ (lenb ++ (payload ++ (ckb ++ rest)))))) =
        match readTnefAttributes rest with
        | .error e => .error e
        | .ok attrs =>
          .ok ⟨leNat [k0, k1], ⟨level % 256, leNat idb, payload, leNat ckb⟩ :: attrs⟩) := by
  constructor
  · intro hck
    rw [read_tnef_eq,
      readTnefAttributes_record _ _ _ _ _ _ hidlen hlenlen hcklen hlen hsmall,
      if_neg hck]
  · intro hck
    rw [read_tnef_eq,
      readTnefAttributes_record _ _ _ _ _ _ hidlen hlenlen hcklen hlen hsmall,
      if_pos hck]
    cases hrest : readTnefAttributes rest <;> rfl

/-- Witness for C1 at a concrete record: payload `[1, 2]` has wrapping sum 3;
checksum 3 is accepted (and stored), checksum 4 is rejected with
`ChecksumMismatch 4 3`. -/
theorem read_tnef_checksum_witness :
    read_tnef [0x78, 0x9F, 0x3E, 0x22, 0, 0, 1, 6, 0, 0, 0, 2, 0, 0, 0, 1, 2, 3, 0] =
      .ok ⟨0, [⟨1, 6, [1, 2], 3⟩]⟩ ∧
    read_tnef [0x78, 0x9F, 0x3E, 0x22, 0, 0, 1, 6, 0, 0, 0, 2, 0, 0, 0, 1, 2, 4, 0] =
      .error (.ChecksumMismatch 4 3) := by
  constructor
  · have h := (read_tnef_checksum 0 0 1 [6, 0, 0, 0] [2, 0, 0, 0] [1, 2] [3, 0] []
      rfl rfl rfl (by decide) (by decide)).2 (by decide)
    simpa using h
  · have h := (read_tnef_checksum 0 0 1 [6, 0, 0, 0] [2, 0, 0, 0] [1, 2] [4, 0] []
      rfl rfl rfl (by decide) (by decide)).1 (by decide)
    simpa using h

/-- C9: `read_tnef` terminates normally (returning the attributes decoded so
far) iff end-of-input falls exactly at an attribute boundary (where the next
level byte would be read); end-of-input inside a record (in the attribute id,
the length, the payload or the checksum) makes it fail with an `Io` error. -/
theorem read_tnef_eof_boundary (k0 k1 : Nat) (body : List Nat) :
    ((∃ f, read_tnef (0x78 :: 0x9F :: 0x3E :: 0x22 :: k0 :: k1 :: body) = .ok f) ↔
      CleanRecords body) ∧
    (MidRecordEOF body →
      read_tnef (0x78 :: 0x9F :: 0x3E :: 0x22 :: k0 :: k1 :: body) = .error .Io) := by
  constructor
  · rw [read_tnef_eq]
    constructor
    · rintro ⟨f, hf⟩
      cases hb : readTnefAttributes body with
      | error e => rw [hb] at hf; exact absurd hf (by simp)
      | ok attrs => exact (readTnefAttributes_ok_iff body).1 ⟨attrs, hb⟩
    · intro hclean
      obtain ⟨attrs, ha⟩ := (readTnefAttributes_ok_iff body).2 hclean
      rw [ha]
      exact ⟨_, rfl⟩
  · intro hmid
    rw [read_tnef_eq, midRecordEOF_io hmid]

/-- Witness for C9: EOF right after the legacy key ends the stream normally;
EOF after a lone level byte is an `Io` error. -/
theorem read_tnef_eof_boundary_witness :
    (∃ f, read_tnef [0x78, 0x9F, 0x3E, 0x22, 0, 0] = .ok f) ∧
    read_tnef [0x78, 0x9F, 0x3E, 0x22, 0, 0, 5] = .error .Io := by
  constructor
  · exact (read_tnef_eof_boundary 0 0 []).1.mpr CleanRecords.nil
  · exact (read_tnef_eof_boundary 0 0 [5]).2
      (MidRecordEOF.here [5] (by decide) (Or.inl (by decide)))

/-! ## Compressed-RTF (LZFu) decoder (src/tnef2mime/src/tnef/cfb_msg.rs,
lines 352-506)

The `print!`/`println!` calls in the source are console diagnostics with no
effect on the returned value and are not modelled. `raw_size` (header bytes
4..8) is used in the source only to pre-size the output vector
(`Vec::with_capacity`), which does not affect the result;
`compressed_size` (bytes 0..4) and `crc` (bytes 12..16) are read and never
used.
-/

/-- Compressed-RTF decode error (`RtfDecodeError`). -/
inductive RtfDecodeError where
  | Io
  | HeaderTooShort (expected obtained : Nat)
  | UnsupportedCompression (compression_type : Nat)
deriving DecidableEq, Repr

def DICTIONARY_CAPACITY : Nat := 4096

/-- The 207-byte preloaded dictionary literal (`INIT_DICTIONARY`), written as
its byte values. -/
def INIT_DICTIONARY : List Nat :=
  [123, 92, 114, 116, 102, 49, 92, 97, 110, 115, 105, 92, 109, 97, 99, 92,
  100, 101, 102, 102, 48, 92, 100, 101, 102, 116, 97, 98, 55, 50, 48, 123,
  92, 102, 111, 110, 116, 116, 98, 108, 59, 125, 123, 92, 102, 48, 92, 102,
  110, 105, 108, 32, 92, 102, 114, 111, 109, 97, 110, 32, 92, 102, 115, 119,
  105, 115, 115, 32, 92, 102, 109, 111, 100, 101, 114, 110, 32, 92, 102, 115,
  99, 114, 105, 112, 116, 32, 92, 102, 100, 101, 99, 111, 114, 32, 77, 83,
  32, 83, 97, 110, 115, 32, 83, 101, 114, 105, 102, 83, 121, 109, 98, 111,
  108, 65, 114, 105, 97, 108, 84, 105, 109, 101, 115, 32, 78, 101, 119, 32,
  82, 111, 109, 97, 110, 67, 111, 117, 114, 105, 101, 114, 123, 92, 99, 111,
  108, 111, 114, 116, 98, 108, 92, 114, 101, 100, 48, 92, 103, 114, 101, 101,
  110, 48, 92, 98, 108, 117, 101, 48, 13, 10, 92, 112, 97, 114, 32, 92,
  112, 97, 114, 100, 92, 112, 108, 97, 105, 110, 92, 102, 48, 92, 102, 115,
  50, 48, 92, 98, 92, 105, 92, 117, 92, 116, 97, 98, 92, 116, 120]

/-- The 4096-byte ring dictionary with read and write cursors
(`CompressedRtfDict`). -/
structure CompressedRtfDict where
  data : List Nat
  write_pos : Nat
  read_pos : Nat
deriving DecidableEq, Repr

/-- Fresh dictionary (`CompressedRtfDict::new`): 4096 zero bytes with the
preamble copied to offsets `0..207`, write cursor at 207, read cursor at 0. -/
def CompressedRtfDict.init : CompressedRtfDict :=
  ⟨INIT_DICTIONARY ++ List.replicate (DICTIONARY_CAPACITY - 207) 0, 207, 0⟩

/-- `literal_read`: store the literal byte at the write cursor and advance it
modulo the capacity. -/
def CompressedRtfDict.literal_read (d : CompressedRtfDict) (value : Nat) :
    CompressedRtfDict :=
  ⟨d.data.set d.write_pos value, (d.write_pos + 1) % DICTIONARY_CAPACITY, d.read_pos⟩

/-- `is_decompression_complete`: a reference offset equal to the write cursor
signals the end of the stream. -/
def CompressedRtfDict.is_decompression_complete (d : CompressedRtfDict)
    (offset : Nat) : Bool :=
  offset == d.write_pos

/-- Copy loop of `reference_read`: read one byte at the read cursor, append it
to the result, write it at the write cursor, advance both cursors modulo the
capacity. -/
def referenceLoop : Nat → CompressedRtfDict → List Nat × CompressedRtfDict
  | 0, d => ([], d)
  | n + 1, d =>
    let b := d.data.getD d.read_pos 0
    let d1 : CompressedRtfDict :=
      ⟨d.data.set d.write_pos b, (d.write_pos + 1) % DICTIONARY_CAPACITY,
        (d.read_pos + 1) % DICTIONARY_CAPACITY⟩
    let p := referenceLoop n d1
    (b :: p.1, p.2)

/-- `reference_read`: set the read cursor to `offset` and copy `length + 2`
bytes. -/
def CompressedRtfDict.reference_read (d : CompressedRtfDict)
    (offset length : Nat) : List Nat × CompressedRtfDict :=
  referenceLoop (length + 2) { d with read_pos := offset }

/-- The inner `for bit_index in 0..8` loop of `decode_compressed_rtf`, with
`r` bits left to process (`bit_index = 8 - r`). Bit clear: one literal byte.
Bit set: one big-endian `u16` dictionary reference with `length = ref & 0xF`
and `offset = (ref >> 4) & 0xFFF`; an offset equal to the write cursor breaks
out of this loop (only). Returns the bytes produced, the remaining input and
the updated dictionary. -/
def processBits (control : Nat) : Nat → List Nat → CompressedRtfDict →
    Except RtfDecodeError (List Nat × List Nat × CompressedRtfDict)
  | 0, input, d => .ok ([], input, d)
  | r + 1, input, d =>
    if control / 2 ^ (8 - (r + 1)) % 2 = 0 then
      match readU8 input with
      | none => .error .Io
      | some (literal, rest) =>
        match processBits control r rest (d.literal_read literal) with
        | .error e => .error e
        | .ok (out, rest2, d2) => .ok (literal :: out, rest2, d2)
    else
      match readU16be input with
      | none => .error .Io
      | some (dictRef, rest) =>
        if d.is_decompression_complete ((dictRef / 16) % 4096) then
          .ok ([], rest, d)
        else
          let p := d.reference_read ((dictRef / 16) % 4096) (dictRef % 16)
          match processBits control r rest p.2 with
          | .error e => .error e
          | .ok (out, rest2, d2) => .ok (p.1 ++ out, rest2, d2)

/-- The outer `while let Some(control) = cursor.read_u8_or_eof()?` loop of
`decode_compressed_rtf`: EOF before a control byte returns the accumulated
output; after a terminating reference the loop still continues with the next
control byte when input remains. `fuel` bounds the iteration count; each
iteration consumes at least the control byte, so `input.length + 1` always
suffices and the out-of-fuel branch is unreachable. -/
def lzfuLoop : Nat → List Nat → CompressedRtfDict → List Nat →
    Except RtfDecodeError (List Nat)
  | _, [], _, acc => .ok acc
  | 0, _ :: _, _, _ => .error .Io
  | fuel + 1, c :: rest, d, acc =>
    match processBits (c % 256) 8 rest d with
    | .error e => .error e
    | .ok (out, rest2, d2) => lzfuLoop fuel rest2 d2 (acc ++ out)

/-- `decode_compressed_rtf` (cfb_msg.rs lines 445-506): 16-byte header check,
`MELA` passthrough of bytes `[16..]`, `LZFu` decompression, anything else
`UnsupportedCompression`. -/
def decode_compressed_rtf (compressed : List Nat) :
    Except RtfDecodeError (List Nat) :=
  if compressed.length < 16 then
    .error (.HeaderTooShort 16 compressed.length)
  else if leNat ((compressed.drop 8).take 4) = 0x414C454D then
    .ok (compressed.drop 16)
  else if leNat ((compressed.drop 8).take 4) ≠ 0x75465A4C then
    .error (.UnsupportedCompression (leNat ((compressed.drop 8).take 4)))
  else
    lzfuLoop ((compressed.drop 16).length + 1) (compressed.drop 16)
      CompressedRtfDict.init []

/-- C7: for every input of at least 16 bytes whose bytes 8..12, read as a
little-endian `u32`, equal 0x414C454D, `decode_compressed_rtf` returns `Ok`
of exactly bytes `[16..]` of the input, unchanged. -/
theorem decode_mela (input : List Nat) (hlen : 16 ≤ input.length)
    (hmagic : leNat ((input.drop 8).take 4) = 0x414C454D) :
    decode_compressed_rtf input = .ok (input.drop 16) := by
  unfold decode_compressed_rtf
  rw [if_neg (by omega), if_pos hmagic]

/-- Witness for C7: a concrete MELA input of 18 bytes passes its last two
bytes through unchanged. -/
theorem decode_mela_witness :
    decode_compressed_rtf
      [0, 0, 0, 0, 0, 0, 0, 0, 0x4D, 0x45, 0x4C, 0x41, 0, 0, 0, 0, 7, 9] =
      .ok [7, 9] := by
  have h := decode_mela
    [0, 0, 0, 0, 0, 0, 0, 0, 0x4D, 0x45, 0x4C, 0x41, 0, 0, 0, 0, 7, 9]
    (by decide) (by decide)
  simpa using h

/-- C10: the result of `decode_compressed_rtf` does not depend on the
`compressed_size` (bytes 0..4), `raw_size` (bytes 4..8) or `crc`
(bytes 12..16) header fields: two inputs of length at least 16 agreeing on
bytes 8..12 and on everything from byte 16 on decode identically (so the CRC
is never validated). -/
theorem decode_header_independent (a b : List Nat)
    (ha : 16 ≤ a.length) (hb : 16 ≤ b.length)
    (hmagic : (a.drop 8).take 4 = (b.drop 8).take 4)
    (hbody : a.drop 16 = b.drop 16) :
    decode_compressed_rtf a = decode_compressed_rtf b := by
  unfold decode_compressed_rtf
  rw [hmagic, hbody, if_neg (show ¬(a.length < 16) by omega),
    if_neg (show ¬(b.length < 16) by omega)]

/-- Witness for C10: two LZFu headers differing in `compressed_size`,
`raw_size` and `crc` decode identically. -/
theorem decode_header_independent_witness :
    decode_compressed_rtf
      [1, 2, 3, 4, 5, 6, 7, 8, 0x4C, 0x5A, 0x46, 0x75, 9, 9, 9, 9] =
    decode_compressed_rtf
      [0, 0, 0, 0, 0, 0, 0, 0, 0x4C, 0x5A, 0x46, 0x75, 0, 0, 0, 0] :=
  decode_header_independent _ _ (by decide) (by decide) (by decide) (by decide)

/-- LZFu input whose first token is a terminating reference (offset 207, the
initial write cursor) followed by a further control byte and eight literal
bytes. -/
def lzfuTrailingInput : List Nat :=
  [0, 0, 0, 0, 0, 0, 0, 0, 0x4C, 0x5A, 0x46, 0x75, 0, 0, 0, 0,
   0x01, 0x0C, 0xF0, 0x00, 65, 66, 67, 68, 69, 70, 71, 72]

/-- C3 (evaluation of the code at the failing input): a reference whose
offset equals the write cursor only breaks the inner 8-bit loop; with more
input remaining, the outer loop reads the next control byte and keeps
decoding, so the eight trailing literals end up in the output instead of the
decode stopping at `Ok []`. When the terminating reference is the last token,
the decode does return `Ok []`. -/
theorem decode_terminator_keeps_reading :
    decode_compressed_rtf lzfuTrailingInput = .ok [65, 66, 67, 68, 69, 70, 71, 72] ∧
    decode_compressed_rtf
      [0, 0, 0, 0, 0, 0, 0, 0, 0x4C, 0x5A, 0x46, 0x75, 0, 0, 0, 0,
       0x01, 0x0C, 0xF0] = .ok [] := by
  constructor
  · rfl
  · rfl

/-! ## TNEF property decoder (src/tnef2mime/src/tnef/mod.rs, lines 233-581)

`PropTag` (generated `prop_enums.rs`, not under src/) is represented by its
16-bit code; per spec §2.C its conversion from `u16` is total and
code-preserving. The active single-byte encoding for `String8` is the
external `encoding_rs` crate's total `decode_with_bom_removal`; it is
passed in as an abstract total function `enc` from raw bytes to the decoded
text (represented by a byte list). UTF-16 strings are represented by their
code-unit lists; `String::from_utf16` succeeds exactly on correctly paired
surrogates (`utf16Valid`). `f32`/`f64` values are carried as their raw
little-endian bit patterns.
-/

/-- GUID value (src/tnef2mime/src/guid.rs). -/
structure Guid where
  data1 : Nat
  data2 : Nat
  data3 : Nat
  data4 : List Nat
deriving DecidableEq, Repr

/-- `Guid::from_le_bytes`: `data1: u32` LE, `data2: u16` LE, `data3: u16` LE,
then 8 raw bytes; `None` unless exactly 16 bytes are given. -/
def Guid.from_le_bytes (bytes : List Nat) : Option Guid :=
  if bytes.length = 16 then
    some ⟨leNat (bytes.take 4), leNat ((bytes.drop 4).take 2),
      leNat ((bytes.drop 6).take 2), (bytes.drop 8).map (· % 256)⟩
  else none

/-- Named-property id (`PropId`): a number or a UTF-16 string (represented by
its code units). -/
inductive PropId where
  | Number (id : Nat)
  | String (units : List Nat)
deriving DecidableEq, Repr

/-- Decoded property value (`PropValue`). Floating-point payloads are raw bit
patterns; `String8` carries the text produced by the active encoding;
`String` carries UTF-16 code units. `ErrorCode` carries the full 64-bit value
read by the TNEF path (`PropValue::ErrorCode(u64)` in the source). -/
inductive PropValue where
  | Unspecified
  | Null
  | Integer16 (v : Int)
  | Integer32 (v : Int)
  | Floating32 (bits : Nat)
  | Floating64 (bits : Nat)
  | Currency (v : Int)
  | FloatingTime (bits : Nat)
  | ErrorCode (v : Nat)
  | Boolean (v : Bool)
  | Object (bytes : List Nat)
  | Integer64 (v : Int)
  | String8 (text : List Nat)
  | String (units : List Nat)
  | Time (v : Int)
  | Guid (g : Guid)
  | Binary (bytes : List Nat)
  | MultipleInteger16 (vs : List Int)
  | MultipleInteger32 (vs : List Int)
  | MultipleFloating32 (vs : List Nat)
  | MultipleFloating64 (vs : List Nat)
  | MultipleCurrency (vs : List Int)
  | MultipleFloatingTime (vs : List Nat)
  | MultipleInteger64 (vs : List Int)
  | MultipleString8 (vs : List (List Nat))
  | MultipleString (vs : List (List Nat))
  | MultipleTime (vs : List Int)
  | MultipleGuid (vs : List Guid)
  | MultipleBinary (vs : List (List Nat))
deriving DecidableEq, Repr

/-- TNEF `Property`: tag (by its 16-bit code), optional named-property id,
value. -/
structure Property where
  tag : Nat
  id : Option (Guid × PropId)
  value : PropValue
deriving DecidableEq, Repr

/-- Result of a decode step: a value, an error, or a Rust `panic!`
(divergence/crash). -/
inductive Outcome (α : Type) where
  | ok : α → Outcome α
  | err : TnefReadError → Outcome α
  | panicked : Outcome α
deriving DecidableEq, Repr

/-- Group a byte list into little-endian `u16` code units (the
`read_u16_le` loops over string payloads). -/
def toU16leList : List Nat → List Nat
  | b0 :: b1 :: rest => (b0 % 256 + 256 * (b1 % 256)) :: toU16leList rest
  | _ => []

/-- Validity of a UTF-16 code-unit sequence: `String::from_utf16` succeeds
iff every high surrogate is followed by a low surrogate and no low surrogate
stands alone. -/
def utf16Valid : List Nat → Bool
  | [] => true
  | c :: rest =>
    if 0xD800 ≤ c ∧ c < 0xDC00 then
      match rest with
      | c2 :: rest2 =>
        if 0xDC00 ≤ c2 ∧ c2 < 0xE000 then utf16Valid rest2 else false
      | [] => false
    else if 0xDC00 ≤ c ∧ c < 0xE000 then false
    else utf16Valid rest

/-- Named-property preamble of `decode_property` (mod.rs lines 246-296): a
16-byte little-endian GUID, a `u32` id kind (0 number / 1 string, anything
else `InvalidIdType`), then the id with pad-to-4 (for a string id, the pad is
computed from the declared byte count and the UTF-16 check happens after the
pad was consumed, as in the source). -/
def readNamedProp (r2 : List Nat) : Outcome ((Guid × PropId) × List Nat) :=
  match takeN 16 r2 with
  | none => .err .Io
  | some (guidBuf, r3) =>
    match Guid.from_le_bytes guidBuf with
    | none => .panicked
    | some guid =>
      match readU32le r3 with
      | none => .err .Io
      | some (idTypeU32, r4) =>
        if idTypeU32 = 0 then
          match readU32le r4 with
          | none => .err .Io
          | some (propIdNum, r5) =>
            match padTo4 4 r5 with
            | none => .err .Io
            | some r6 => .ok ((guid, .Number propIdNum), r6)
        else if idTypeU32 = 1 then
          match readU32le r4 with
          | none => .err .Io
          | some (lengthBytes, r5) =>
            match takeN (2 * (lengthBytes / 2)) r5 with
            | none => .err .Io
            | some (charBytes, r6) =>
              match padTo4 lengthBytes r6 with
              | none => .err .Io
              | some r7 =>
                if utf16Valid (toU16leList charBytes) then
                  .ok ((guid, .String (toU16leList charBytes)), r7)
                else .err (.InvalidStringId (toU16leList charBytes))
        else .err (.InvalidIdType idTypeU32)

/-- Read one fixed-width element: a primitive read followed by `pad_to_4`
with the stated byte count (the count actually passed in the source, which
for `MultipleInteger64`/`MultipleTime` is 4 regardless of the 8-byte
element). -/
def stepFixed {α : Type} (read : List Nat → Option (Nat × List Nat)) (pad : Nat)
    (f : Nat → α) (l : List Nat) : Outcome (α × List Nat) :=
  match read l with
  | none => .err .Io
  | some (v, r) =>
    match padTo4 pad r with
    | none => .err .Io
    | some r2 => .ok (f v, r2)

/-- One binary element: `u32` byte count, the bytes, pad-to-4. -/
def stepBinary (l : List Nat) : Outcome (List Nat × List Nat) :=
  match readU32le l with
  | none => .err .Io
  | some (byteCount, r) =>
    match takeN byteCount r with
    | none => .err .Io
    | some (bytes, r2) =>
      match padTo4 byteCount r2 with
      | none => .err .Io
      | some r3 => .ok (bytes, r3)

/-- One `String8` element: like a binary element, but the bytes pass through
the active encoding (with BOM removal, which never fails). -/
def stepString8 (enc : List Nat → List Nat) (l : List Nat) :
    Outcome (List Nat × List Nat) :=
  match readU32le l with
  | none => .err .Io
  | some (byteCount, r) =>
    match takeN byteCount r with
    | none => .err .Io
    | some (bytes, r2) =>
      match padTo4 byteCount r2 with
      | none => .err .Io
      | some r3 => .ok (enc bytes, r3)

/-- One UTF-16 string element: `u32` byte count (odd counts fail with
`OddStringLength`), the code units, `String::from_utf16` (ill-formed UTF-16
fails with `InvalidString` before the padding is consumed), pad-to-4. -/
def stepString (l : List Nat) : Outcome (List Nat × List Nat) :=
  match readU32le l with
  | none => .err .Io
  | some (byteCount, r) =>
    if byteCount % 2 ≠ 0 then .err (.OddStringLength byteCount)
    else
      match takeN byteCount r with
      | none => .err .Io
      | some (bytes, r2) =>
        if utf16Valid (toU16leList bytes) then
          match padTo4 byteCount r2 with
          | none => .err .Io
          | some r3 => .ok (toU16leList bytes, r3)
        else .err (.InvalidString (toU16leList bytes))

/-- One GUID element: 16 bytes, `Guid::from_le_bytes(..).unwrap()` (the
`unwrap` cannot fail because exactly 16 bytes were read). -/
def stepGuid (l : List Nat) : Outcome (Guid × List Nat) :=
  match takeN 16 l with
  | none => .err .Io
  | some (buf, r) =>
    match Guid.from_le_bytes buf with
    | none => .panicked
    | some g => .ok (g, r)

/-- `value_count`-fold repetition of an element reader (the per-element `for`
loops of `decode_property`). -/
def readElems {α : Type} (step : List Nat → Outcome (α × List Nat)) :
    Nat → List Nat → Outcome (List α × List Nat)
  | 0, l => .ok ([], l)
  | n + 1, l =>
    match step l with
    | .err e => .err e
    | .panicked => .panicked
    | .ok (v, r) =>
      match readElems step n r with
      | .err e => .err e
      | .panicked => .panicked
      | .ok (vs, r2) => .ok (v :: vs, r2)

/-- Map the decoded payload of a step into its `PropValue` constructor. -/
def mapOutcome {α β : Type} (f : α → β) :
    Outcome (α × List Nat) → Outcome (β × List Nat)
  | .err e => .err e
  | .panicked => .panicked
  | .ok (v, r) => .ok (f v, r)

/-- Read the `u32` value count that precedes every `Multiple*`, `Object`,
`String8`, `String` and `Binary` payload. -/
def withCount (l : List Nat)
    (k : Nat → List Nat → Outcome (PropValue × List Nat)) :
    Outcome (PropValue × List Nat) :=
  match readU32le l with
  | none => .err .Io
  | some (n, r) => k n r

/-- Value part of `decode_property` (mod.rs lines 298-573), one arm per
`PropType` variant. `ErrorCode` reads a `u64` (`read_u64_le`, mod.rs line
332). `Boolean` accepts only 0x00/0x01 and then skips 3 padding bytes. The
`Other` arm reads 128 bytes, hexdumps them and calls `panic!` (modelled by
`Outcome.panicked`). -/
def decodePropValue (enc : List Nat → List Nat) (propType : PropType)
    (rv : List Nat) : Outcome (PropValue × List Nat) :=
  match propType with
  | .Unspecified => .ok (.Unspecified, rv)
  | .Null => .ok (.Null, rv)
  | .Integer16 => mapOutcome PropValue.Integer16 (stepFixed readU16le 2 asI16 rv)
  | .Integer32 => mapOutcome PropValue.Integer32 (stepFixed readU32le 4 asI32 rv)
  | .Floating32 => mapOutcome PropValue.Floating32 (stepFixed readU32le 4 id rv)
  | .Floating64 => mapOutcome PropValue.Floating64 (stepFixed readU64le 8 id rv)
  | .Currency => mapOutcome PropValue.Currency (stepFixed readU64le 8 asI64 rv)
  | .FloatingTime => mapOutcome PropValue.FloatingTime (stepFixed readU64le 8 id rv)
  | .ErrorCode => mapOutcome PropValue.ErrorCode (stepFixed readU64le 8 id rv)
  | .Boolean =>
    match readU8 rv with
    | none => .err .Io
    | some (b, r) =>
      if b = 0 then
        match padTo4 1 r with
        | none => .err .Io
        | some r2 => .ok (.Boolean false, r2)
      else if b = 1 then
        match padTo4 1 r with
        | none => .err .Io
        | some r2 => .ok (.Boolean true, r2)
      else .err (.InvalidBoolean b)
  | .Object =>
    withCount rv fun n r =>
      if n ≠ 1 then .err (.MultipleValuesSingleType .Object n)
      else mapOutcome PropValue.Object (stepBinary r)
  | .Integer64 => mapOutcome PropValue.Integer64 (stepFixed readU64le 8 asI64 rv)
  | .Time => mapOutcome PropValue.Time (stepFixed readU64le 8 asI64 rv)
  | .Guid => mapOutcome PropValue.Guid (stepGuid rv)
  | .MultipleInteger16 =>
    withCount rv fun n r =>
      mapOutcome PropValue.MultipleInteger16 (readElems (stepFixed readU16le 2 asI16) n r)
  | .MultipleInteger32 =>
    withCount rv fun n r =>
      mapOutcome PropValue.MultipleInteger32 (readElems (stepFixed readU32le 4 asI32) n r)
  | .MultipleFloating32 =>
    withCount rv fun n r =>
      mapOutcome PropValue.MultipleFloating32 (readElems (stepFixed readU32le 4 id) n r)
  | .MultipleFloating64 =>
    withCount rv fun n r =>
      mapOutcome PropValue.MultipleFloating64 (readElems (stepFixed readU64le 8 id) n r)
  | .MultipleCurrency =>
    withCount rv fun n r =>
      mapOutcome PropValue.MultipleCurrency (readElems (stepFixed readU64le 8 asI64) n r)
  | .MultipleFloatingTime =>
    withCount rv fun n r =>
      mapOutcome PropValue.MultipleFloatingTime (readElems (stepFixed readU64le 8 id) n r)
  | .MultipleInteger64 =>
    withCount rv fun n r =>
      mapOutcome PropValue.MultipleInteger64 (readElems (stepFixed readU64le 4 asI64) n r)
  | .String8 =>
    withCount rv fun n r =>
      if n ≠ 1 then .err (.MultipleValuesSingleType .String8 n)
      else
        match readElems (stepString8 enc) n r with
        | .err e => .err e
        | .panicked => .panicked
        | .ok (vs, r2) =>
          match vs with
          | v :: _ => .ok (.String8 v, r2)
          | [] => .panicked
  | .MultipleString8 =>
    withCount rv fun n r =>
      mapOutcome PropValue.MultipleString8 (readElems (stepString8 enc) n r)
  | .String =>
    withCount rv fun n r =>
      if n ≠ 1 then .err (.MultipleValuesSingleType .String n)
      else
        match readElems stepString n r with
        | .err e => .err e
        | .panicked => .panicked
        | .ok (vs, r2) =>
          match vs with
          | v :: _ => .ok (.String v, r2)
          | [] => .panicked
  | .MultipleString =>
    withCount rv fun n r =>
      mapOutcome PropValue.MultipleString (readElems stepString n r)
  | .MultipleTime =>
    withCount rv fun n r =>
      mapOutcome PropValue.MultipleTime (readElems (stepFixed readU64le 4 asI64) n r)
  | .MultipleGuid =>
    withCount rv fun n r =>
      mapOutcome PropValue.MultipleGuid (readElems stepGuid n r)
  | .Binary =>
    withCount rv fun n r =>
      if n ≠ 1 then .err (.MultipleValuesSingleType .Binary n)
      else
        match readElems stepBinary n r with
        | .err e => .err e
        | .panicked => .panicked
        | .ok (vs, r2) =>
          match vs with
          | v :: _ => .ok (.Binary v, r2)
          | [] => .panicked
  | .MultipleBinary =>
    withCount rv fun n r =>
      mapOutcome PropValue.MultipleBinary (readElems stepBinary n r)
  | .Other _ =>
    match takeN 128 rv with
    | none => .err .Io
    | some _ => .panicked

/-- Tail of `decode_property` after type, tag and the optional named-property
preamble were read: decode the value, then assemble the `Property`. -/
def finishProp (enc : List Nat → List Nat) (propTypeU16 propTagU16 : Nat)
    (propFullId : Option (Guid × PropId)) (rv : List Nat) :
    Outcome (Property × List Nat) :=
  match decodePropValue enc (PropType.from_base_type propTypeU16) rv with
  | .err e => .err e
  | .panicked => .panicked
  | .ok (value, rest) => .ok (⟨propTagU16, propFullId, value⟩, rest)

/-- Tail of `decode_property` after type and tag were read: a tag code of at
least 0x8000 reads the named-property preamble first. -/
def decodePropertyAfterTag (enc : List Nat → List Nat)
    (propTypeU16 propTagU16 : Nat) (r2 : List Nat) :
    Outcome (Property × List Nat) :=
  if 0x8000 ≤ propTagU16 then
    match readNamedProp r2 with
    | .err e => .err e
    | .panicked => .panicked
    | .ok (gid, r3) => finishProp enc propTypeU16 propTagU16 (some gid) r3
  else finishProp enc propTypeU16 propTagU16 none r2

/-- Tail of `decode_property` after the type was read. -/
def decodePropertyAfterType (enc : List Nat → List Nat) (propTypeU16 : Nat)
    (r1 : List Nat) : Outcome (Property × List Nat) :=
  match readU16le r1 with
  | none => .err .Io
  | some (propTagU16, r2) => decodePropertyAfterTag enc propTypeU16 propTagU16 r2

/-- `decode_property` (mod.rs lines 233-581): `u16` type code, `u16` tag
code, optional named-property preamble, then the value. -/
def decode_property (enc : List Nat → List Nat) (input : List Nat) :
    Outcome (Property × List Nat) :=
  match readU16le input with
  | none => .err .Io
  | some (propTypeU16, r1) => decodePropertyAfterType enc propTypeU16 r1

/-! ## CFB ".msg" reader (src/tnef2mime/src/tnef/cfb_msg.rs, lines 12-349)

The CFB low-level (the external `cfb` crate, `CompoundFile`) is modelled as
the "open stream by absolute path" primitive the spec assumes: a partial map
from path to stream contents. `open_stream` failures surface as `Io` via the
`?` operator. `Guid::from_le_byte_slice` (used at cfb_msg.rs line 166) is
not among the sources; it is the little-endian `Guid` decoder
`Guid::from_le_bytes` applied to a slice.
-/

/-- Abstract opened compound file: path to stream contents. -/
def Cfb : Type := String → Option (List Nat)

/-- CFB property (cfb_msg.rs `Property`): storage type, tag (by its 16-bit
code, see the `PropTag` note above), flags, value. -/
structure CfbProperty where
  property_type : PropType
  tag : Nat
  flags : Nat
  value : PropValue
deriving DecidableEq, Repr

/-- One recipient (a thin wrapper over its property list). -/
structure Recipient where
  properties : List CfbProperty
deriving DecidableEq, Repr

/-- One attachment (a thin wrapper over its property list). -/
structure Attachment where
  properties : List CfbProperty
deriving DecidableEq, Repr

/-- A decoded ".msg" (`Msg`). -/
structure Msg where
  properties : List CfbProperty
  recipients : List Recipient
  attachments : List Attachment
deriving DecidableEq, Repr

/-- Upper-case hexadecimal digit of `n % 16`. -/
def hexDigit (n : Nat) : Char :=
  ['0', '1', '2', '3', '4', '5', '6', '7', '8', '9',
   'A', 'B', 'C', 'D', 'E', 'F'].getD (n % 16) '0'

/-- Fixed-width upper-case hexadecimal rendering (Rust `{:04X}` on `u16` and
`{:08X}` on `u32` produce exactly 4 and 8 digits for the values used here). -/
def hexFixed : Nat → Nat → String
  | 0, _ => ""
  | w + 1, n => hexFixed w (n / 16) ++ String.mk [hexDigit n]

/-- UTF-8 continuation byte (0x80..0xBF). -/
def utf8Cont (b : Nat) : Bool := decide (0x80 ≤ b % 256 ∧ b % 256 < 0xC0)

/-- Validity of a UTF-8 byte sequence (`String::from_utf8` succeeds iff this
holds): ASCII; 2-byte C2..DF; 3-byte E0 A0..BF, E1..EC 80..BF, ED 80..9F
(no surrogates), EE..EF 80..BF; 4-byte F0 90..BF, F1..F3 80..BF, F4 80..8F;
continuation bytes 80..BF. -/
def utf8Valid : List Nat → Bool
  | [] => true
  | b :: l =>
    if b % 256 < 0x80 then utf8Valid l
    else if b % 256 < 0xC2 then false
    else if b % 256 < 0xE0 then
      match l with
      | b1 :: l2 => utf8Cont b1 && utf8Valid l2
      | [] => false
    else if b % 256 < 0xF0 then
      match l with
      | b1 :: b2 :: l3 =>
        (if b % 256 = 0xE0 then decide (0xA0 ≤ b1 % 256 ∧ b1 % 256 < 0xC0)
         else if b % 256 = 0xED then decide (0x80 ≤ b1 % 256 ∧ b1 % 256 < 0xA0)
         else utf8Cont b1) && utf8Cont b2 && utf8Valid l3
      | _ => false
    else if b % 256 < 0xF5 then
      match l with
      | b1 :: b2 :: b3 :: l4 =>
        (if b % 256 = 0xF0 then decide (0x90 ≤ b1 % 256 ∧ b1 % 256 < 0xC0)
         else if b % 256 = 0xF4 then decide (0x80 ≤ b1 % 256 ∧ b1 % 256 < 0x90)
         else utf8Cont b1) && utf8Cont b2 && utf8Cont b3 && utf8Valid l4
      | _ => false
    else false

/-- Inline (8-byte) storage decode (cfb_msg.rs lines 97-109): only the low
bytes are interpreted per width; `Boolean` is `buf[0] != 0x00` (any nonzero
byte is `true`); `ErrorCode` is a 32-bit read (`buf[0..4]`). The final arm is
`unreachable!` in the source. -/
def decodeInline (propType : PropType) (buf : List Nat) : PropValue :=
  match propType with
  | .Integer16 => .Integer16 (asI16 (leNat (buf.take 2)))
  | .Integer32 => .Integer32 (asI32 (leNat (buf.take 4)))
  | .Floating32 => .Floating32 (leNat (buf.take 4))
  | .Floating64 => .Floating64 (leNat (buf.take 8))
  | .Boolean => .Boolean (decide (buf.getD 0 0 % 256 ≠ 0))
  | .Currency => .Currency (asI64 (leNat (buf.take 8)))
  | .FloatingTime => .FloatingTime (leNat (buf.take 8))
  | .Time => .Time (asI64 (leNat (buf.take 8)))
  | .Integer64 => .Integer64 (asI64 (leNat (buf.take 8)))
  | .ErrorCode => .ErrorCode (leNat (buf.take 4))
  | _ => .Null

/-- External single-stream decode (cfb_msg.rs lines 129-171): `none` means
the property is skipped (`continue`): odd UTF-16 byte counts, ill-formed
UTF-16/UTF-8, or a GUID stream that is not exactly 16 bytes. -/
def decodeSingleExternal (propType : PropType) (valueBuf : List Nat) :
    Option PropValue :=
  match propType with
  | .String =>
    if valueBuf.length % 2 ≠ 0 then none
    else if utf16Valid (toU16leList valueBuf) then some (.String (toU16leList valueBuf))
    else none
  | .Binary => some (.Binary valueBuf)
  | .String8 =>
    if utf8Valid valueBuf then some (.String8 valueBuf) else none
  | .Guid =>
    if valueBuf.length ≠ 16 then none
    else (Guid.from_le_bytes valueBuf).map PropValue.Guid
  | .Object => some (.Object valueBuf)
  | _ => none

/-- Split a byte buffer into its `size`-byte chunks (Rust `chunks(size)`;
only used after the divisibility check, where the two agree). -/
def chunksOf (size : Nat) (l : List Nat) : List (List Nat) :=
  (List.range (l.length / size)).map (fun i => (l.drop (i * size)).take size)

/-- Fixed-width multi-value decode from one external stream
(`match_multiple_fixed_property_type!`, cfb_msg.rs lines 42-66 and 193-204):
a byte count not divisible by the chunk size skips the property. The macro's
`Guid` instantiation applies the 16-byte little-endian `Guid` decoder to each
chunk (which always succeeds on a 16-byte chunk). -/
def decodeMultipleFixed (propType : PropType) (valueBuf : List Nat) :
    Option PropValue :=
  match propType with
  | .MultipleInteger16 =>
    if valueBuf.length % 2 ≠ 0 then none
    else some (.MultipleInteger16 ((chunksOf 2 valueBuf).map (fun c => asI16 (leNat c))))
  | .MultipleInteger32 =>
    if valueBuf.length % 4 ≠ 0 then none
    else some (.MultipleInteger32 ((chunksOf 4 valueBuf).map (fun c => asI32 (leNat c))))
  | .MultipleFloating32 =>
    if valueBuf.length % 4 ≠ 0 then none
    else some (.MultipleFloating32 ((chunksOf 4 valueBuf).map leNat))
  | .MultipleFloating64 =>
    if valueBuf.length % 8 ≠ 0 then none
    else some (.MultipleFloating64 ((chunksOf 8 valueBuf).map leNat))
  | .MultipleCurrency =>
    if valueBuf.length % 8 ≠ 0 then none
    else some (.MultipleCurrency ((chunksOf 8 valueBuf).map (fun c => asI64 (leNat c))))
  | .MultipleFloatingTime =>
    if valueBuf.length % 8 ≠ 0 then none
    else some (.MultipleFloatingTime ((chunksOf 8 valueBuf).map leNat))
  | .MultipleTime =>
    if valueBuf.length % 8 ≠ 0 then none
    else some (.MultipleTime ((chunksOf 8 valueBuf).map (fun c => asI64 (leNat c))))
  | .MultipleGuid =>
    if valueBuf.length % 16 ≠ 0 then none
    else some (.MultipleGuid ((chunksOf 16 valueBuf).filterMap Guid.from_le_bytes))
  | .MultipleInteger64 =>
    if valueBuf.length % 8 ≠ 0 then none
    else some (.MultipleInteger64 ((chunksOf 8 valueBuf).map (fun c => asI64 (leNat c))))
  | _ => none

/-- Collect the element sub-streams `<basePath>-<INDEX:08X>` for the given
indices, skipping missing streams (the inner `continue`). -/
def collectElemBufs (fs : Cfb) (basePath : String) : List Nat → List (List Nat)
  | [] => []
  | i :: rest =>
    match fs (basePath ++ "-" ++ hexFixed 8 i) with
    | none => collectElemBufs fs basePath rest
    | some buf => buf :: collectElemBufs fs basePath rest

/-- Per-element UTF-16 decode of a `MultipleString` (cfb_msg.rs lines
260-282): odd byte counts and ill-formed UTF-16 skip that element only. -/
def decodeMultiString (bufs : List (List Nat)) : List (List Nat) :=
  bufs.filterMap (fun buf =>
    if buf.length % 2 ≠ 0 then none
    else if utf16Valid (toU16leList buf) then some (toU16leList buf) else none)

/-- Per-element UTF-8 decode of a `MultipleString8` (cfb_msg.rs lines
283-297): ill-formed UTF-8 skips that element only. -/
def decodeMultiString8 (bufs : List (List Nat)) : List (List Nat) :=
  bufs.filterMap (fun buf => if utf8Valid buf then some buf else none)

/-- Multi-stream decode (cfb_msg.rs lines 206-300): the lengths stream gives
the value count (4 bytes per string entry, 8 per binary entry; bad
divisibility skips the property), and element `i` comes from the
`-<i:08X>` stream. -/
def decodeMultiStream (fs : Cfb) (dirPath : String) (propType : PropType)
    (tag typeU16 : Nat) : Option PropValue :=
  match fs (dirPath ++ "/__substg1.0_" ++ hexFixed 4 tag ++ hexFixed 4 typeU16) with
  | none => none
  | some lengthsBuf =>
    match propType with
    | .MultipleString =>
      if lengthsBuf.length % 4 ≠ 0 then none
      else some (.MultipleString (decodeMultiString (collectElemBufs fs
        (dirPath ++ "/__substg1.0_" ++ hexFixed 4 tag ++ hexFixed 4 typeU16)
        (List.range (lengthsBuf.length / 4)))))
    | .MultipleString8 =>
      if lengthsBuf.length % 4 ≠ 0 then none
      else some (.MultipleString8 (decodeMultiString8 (collectElemBufs fs
        (dirPath ++ "/__substg1.0_" ++ hexFixed 4 tag ++ hexFixed 4 typeU16)
        (List.range (lengthsBuf.length / 4)))))
    | .MultipleBinary =>
      if lengthsBuf.length % 8 ≠ 0 then none
      else some (.MultipleBinary (collectElemBufs fs
        (dirPath ++ "/__substg1.0_" ++ hexFixed 4 tag ++ hexFixed 4 typeU16)
        (List.range (lengthsBuf.length / 8))))
    | _ => none

/-- Body of the `while` loop of `read_properties` after type, tag and flags
were read (cfb_msg.rs lines 85-307): `Unspecified`/`Null`/`Other` are hard
`InvalidPropertyType` errors; otherwise exactly 8 further bytes are read (the
inline value, or `u32 length` plus `u32 reserved`), and external storage
comes from the `__substg1.0_<TAG:04X><TYPE:04X>` sub-streams. A missing
stream or malformed payload skips the property (`continue`), yielding
`none`. -/
def readOneProperty (fs : Cfb) (dirPath : String) (typeU16 tag flags : Nat)
    (stream : List Nat) :
    Except TnefReadError (Option CfbProperty × List Nat) :=
  match PropType.from_base_type typeU16 with
  | .Unspecified => .error (.InvalidPropertyType typeU16)
  | .Null => .error (.InvalidPropertyType typeU16)
  | .Other _ => .error (.InvalidPropertyType typeU16)
  | propType =>
    match takeN 8 stream with
    | none => .error .Io
    | some (meta, r) =>
      let optValue : Option PropValue :=
        match propType with
        | .Integer16 | .Integer32 | .Floating32 | .Floating64 | .Boolean
        | .Currency | .FloatingTime | .Time | .Integer64 | .ErrorCode =>
          some (decodeInline propType meta)
        | .String | .Binary | .String8 | .Guid | .Object =>
          match fs (dirPath ++ "/__substg1.0_" ++ hexFixed 4 tag ++ hexFixed 4 typeU16) with
          | none => none
          | some valueBuf => decodeSingleExternal propType valueBuf
        | .MultipleBinary | .MultipleString8 | .MultipleString =>
          decodeMultiStream fs dirPath propType tag typeU16
        | _ =>
          match fs (dirPath ++ "/__substg1.0_" ++ hexFixed 4 tag ++ hexFixed 4 typeU16) with
          | none => none
          | some valueBuf => decodeMultipleFixed propType valueBuf
      .ok (optValue.map (fun v => ⟨propType, tag, flags, v⟩), r)

/-- Property-record loop of `read_properties`: `u16` type via
`read_u16_le_or_eof` (EOF before the first byte ends the loop; EOF after one
byte is an `Io` error), `u16` tag, `u32` flags, then the record body. `fuel`
bounds the iteration count; every iteration consumes 16 bytes, so
`stream.length + 1` always suffices and the out-of-fuel branch is
unreachable. -/
def readPropsLoop (fs : Cfb) (dirPath : String) :
    Nat → List Nat → Except TnefReadError (List CfbProperty)
  | _, [] => .ok []
  | _, [_] => .error .Io
  | 0, _ :: _ :: _ => .error .Io
  | fuel + 1, b0 :: b1 :: rest =>
    match readU16le rest with
    | none => .error .Io
    | some (tag, r2) =>
      match readU32le r2 with
      | none => .error .Io
      | some (flags, r3) =>
        match readOneProperty fs dirPath (leNat [b0, b1]) tag flags r3 with
        | .error e => .error e
        | .ok (optProp, r4) =>
          match readPropsLoop fs dirPath fuel r4 with
          | .error e => .error e
          | .ok props =>
            .ok (match optProp with
                 | none => props
                 | some p => p :: props)

/-- `read_properties` (cfb_msg.rs lines 69-310): open
`<dirPath>/__properties_version1.0`, read `headerLength` header bytes, then
property records until EOF; returns the header bytes and the properties. -/
def read_properties (fs : Cfb) (dirPath : String) (headerLength : Nat) :
    Except TnefReadError (List Nat × List CfbProperty) :=
  match fs (dirPath ++ "/__properties_version1.0") with
  | none => .error .Io
  | some stream =>
    match takeN headerLength stream with
    | none => .error .Io
    | some (header, rest) =>
      match readPropsLoop fs dirPath (rest.length + 1) rest with
      | .error e => .error e
      | .ok props => .ok (header, props)

/-- Recipient/attachment loops of `read_cfb_msg`: one `read_properties` per
index, any failure aborting the whole read (`?` in the source). -/
def readItems (fs : Cfb) (mkPath : Nat → String) :
    List Nat → Except TnefReadError (List (List CfbProperty))
  | [] => .ok []
  | i :: rest =>
    match read_properties fs (mkPath i) 8 with
    | .error e => .error e
    | .ok (_, props) =>
      match readItems fs mkPath rest with
      | .error e => .error e
      | .ok lists => .ok (props :: lists)

/-- Sub-storage path of recipient `i` (`/__recip_version1.0_#<i:08X>`). -/
def recipPath (i : Nat) : String := "/__recip_version1.0_#" ++ hexFixed 8 i

/-- Sub-storage path of attachment `i` (`/__attach_version1.0_#<i:08X>`). -/
def attachPath (i : Nat) : String := "/__attach_version1.0_#" ++ hexFixed 8 i

/-- `read_cfb_msg` (cfb_msg.rs lines 313-349): root properties with a 32-byte
header, `recipient_count` at header bytes 16..20 and `attachment_count` at
20..24 (little-endian `u32`), recipient `i` from its `__recip` sub-storage
and attachment `i` from its `__attach` sub-storage, each with an 8-byte
property-stream header. -/
def read_cfb_msg (fs : Cfb) : Except TnefReadError Msg :=
  match read_properties fs "" 32 with
  | .error e => .error e
  | .ok (headerBytes, properties) =>
    match readItems fs recipPath (List.range (leNat ((headerBytes.drop 16).take 4))) with
    | .error e => .error e
    | .ok recipLists =>
      match readItems fs attachPath (List.range (leNat ((headerBytes.drop 20).take 4))) with
      | .error e => .error e
      | .ok attachLists =>
        .ok ⟨properties, recipLists.map Recipient.mk, attachLists.map Attachment.mk⟩

/-! ### C8: recipient/attachment counts -/

theorem readItems_ok {fs : Cfb} {mkPath : Nat → String} :
    ∀ {idxs : List Nat} {lists : List (List CfbProperty)},
      readItems fs mkPath idxs = .ok lists →
      lists.length = idxs.length ∧
      ∀ j, j < idxs.length →
        ∃ hdr, read_properties fs (mkPath (idxs.getD j 0)) 8 =
          .ok (hdr, lists.getD j []) := by
  intro idxs
  induction idxs with
  | nil =>
    intro lists h
    unfold readItems at h
    injection h with h2
    subst h2
    exact ⟨rfl, fun j hj => absurd hj (by simp)⟩
  | cons i rest ih =>
    intro lists h
    unfold readItems at h
    cases hrp : read_properties fs (mkPath i) 8 with
    | error e => rw [hrp] at h; exact absurd h (by simp)
    | ok p =>
      obtain ⟨hdr, props⟩ := p
      rw [hrp] at h
      simp only at h
      cases hrest : readItems fs mkPath rest with
      | error e => rw [hrest] at h; exact absurd h (by simp)
      | ok lists2 =>
        rw [hrest] at h
        simp only at h
        injection h with h2
        subst h2
        obtain ⟨hlen, helem⟩ := ih hrest
        refine ⟨by simp [hlen], fun j hj => ?_⟩
        cases j with
        | zero => exact ⟨hdr, by simpa using hrp⟩
        | succ j2 =>
          obtain ⟨hdr2, hrp2⟩ := helem j2 (by simpa using hj)
          exact ⟨hdr2, by simp only [List.getD_cons_succ]; exact hrp2⟩

theorem range_getD {n j : Nat} (h : j < n) : (List.range n).getD j 0 = j := by
  simp [List.getD, List.getElem?_range, h]

theorem map_getD {α β : Type} (f : α → β) (l : List α) (d : α) :
    ∀ j : Nat, (l.map f).getD j (f d) = f (l.getD j d) := by
  induction l with
  | nil => intro j; simp [List.getD]
  | cons a rest ih =>
    intro j
    cases j with
    | zero => simp
    | succ j2 => simp only [List.map_cons, List.getD_cons_succ]; exact ih j2

/-- C8: for every compound file on which `read_cfb_msg` succeeds,
`recipients.len()` equals the little-endian `u32` at offsets 16..20 of the
root `__properties_version1.0` header and `attachments.len()` the one at
offsets 20..24, with recipient `i` read from
`/__recip_version1.0_#<i:08X>` and attachment `i` from
`/__attach_version1.0_#<i:08X>`. -/
theorem read_cfb_msg_counts (fs : Cfb) (msg : Msg)
    (h : read_cfb_msg fs = .ok msg) :
    ∃ header props, read_properties fs "" 32 = .ok (header, props) ∧
      msg.properties = props ∧
      msg.recipients.length = leNat ((header.drop 16).take 4) ∧
      msg.attachments.length = leNat ((header.drop 20).take 4) ∧
      (∀ i, i < msg.recipients.length → ∃ hdr,
        read_properties fs (recipPath i) 8 =
          .ok (hdr, (msg.recipients.getD i ⟨[]⟩).properties)) ∧
      (∀ i, i < msg.attachments.length → ∃ hdr,
        read_properties fs (attachPath i) 8 =
          .ok (hdr, (msg.attachments.getD i ⟨[]⟩).properties)) := by
  unfold read_cfb_msg at h
  cases hroot : read_properties fs "" 32 with
  | error e => rw [hroot] at h; exact absurd h (by simp)
  | ok p =>
    obtain ⟨header, props⟩ := p
    rw [hroot] at h
    simp only at h
    cases hrec : readItems fs recipPath (List.range (leNat ((header.drop 16).take 4))) with
    | error e => rw [hrec] at h; exact absurd h (by simp)
    | ok recipLists =>
      rw [hrec] at h
      simp only at h
      cases hatt : readItems fs attachPath (List.range (leNat ((header.drop 20).take 4))) with
      | error e => rw [hatt] at h; exact absurd h (by simp)
      | ok attachLists =>
        rw [hatt] at h
        simp only at h
        injection h with h2
        subst h2
        obtain ⟨hrlen, hrel⟩ := readItems_ok hrec
        obtain ⟨halen, hael⟩ := readItems_ok hatt
        simp only [List.length_range] at hrlen halen
        refine ⟨header, props, rfl, rfl, by simp [hrlen], by simp [halen],
          fun i hi => ?_, fun i hi => ?_⟩
        · simp only [List.length_map, hrlen] at hi
          obtain ⟨hdr, hrp⟩ := hrel i (by simpa using hi)
          rw [range_getD hi] at hrp
          refine ⟨hdr, ?_⟩
          have hm : ((recipLists.map Recipient.mk).getD i ⟨[]⟩).properties =
              recipLists.getD i [] := by
            rw [show (⟨[]⟩ : Recipient) = Recipient.mk [] from rfl,
              map_getD Recipient.mk recipLists []]
          simpa [hm] using hrp
        · simp only [List.length_map, halen] at hi
          obtain ⟨hdr, hrp⟩ := hael i (by simpa using hi)
          rw [range_getD hi] at hrp
          refine ⟨hdr, ?_⟩
          have hm : ((attachLists.map Attachment.mk).getD i ⟨[]⟩).properties =
              attachLists.getD i [] := by
            rw [show (⟨[]⟩ : Attachment) = Attachment.mk [] from rfl,
              map_getD Attachment.mk attachLists []]
          simpa [hm] using hrp

/-- Compound file with a root header declaring 2 recipients and 1 attachment,
empty property records everywhere. -/
def cfbWitnessFs : Cfb := fun p =>
  if p = "/__properties_version1.0" then
    some [0, 0, 0, 0, 0, 0, 0, 0, 0, 0, 0, 0, 0, 0, 0, 0,
          2, 0, 0, 0, 1, 0, 0, 0, 0, 0, 0, 0, 0, 0, 0, 0]
  else if p = "/__recip_version1.0_#00000000/__properties_version1.0" then
    some [0, 0, 0, 0, 0, 0, 0, 0]
  else if p = "/__recip_version1.0_#00000001/__properties_version1.0" then
    some [0, 0, 0, 0, 0, 0, 0, 0]
  else if p = "/__attach_version1.0_#00000000/__properties_version1.0" then
    some [0, 0, 0, 0, 0, 0, 0, 0]
  else none

def cfbWitnessMsg : Msg := ⟨[], [⟨[]⟩, ⟨[]⟩], [⟨[]⟩]⟩

/-- Witness for C8 on the concrete compound file: 2 recipients, 1
attachment. -/
theorem read_cfb_msg_counts_witness :
    ∃ header props, read_properties cfbWitnessFs "" 32 = .ok (header, props) ∧
      cfbWitnessMsg.properties = props ∧
      cfbWitnessMsg.recipients.length = leNat ((header.drop 16).take 4) ∧
      cfbWitnessMsg.attachments.length = leNat ((header.drop 20).take 4) ∧
      (∀ i, i < cfbWitnessMsg.recipients.length → ∃ hdr,
        read_properties cfbWitnessFs (recipPath i) 8 =
          .ok (hdr, (cfbWitnessMsg.recipients.getD i ⟨[]⟩).properties)) ∧
      (∀ i, i < cfbWitnessMsg.attachments.length → ∃ hdr,
        read_properties cfbWitnessFs (attachPath i) 8 =
          .ok (hdr, (cfbWitnessMsg.attachments.getD i ⟨[]⟩).properties)) :=
  read_cfb_msg_counts cfbWitnessFs cfbWitnessMsg (by rfl)

/-! ### C2 / C4 / C5: per-type value decoding -/

theorem readU16le_cons (b0 b1 : Nat) (l : List Nat) :
    readU16le (b0 :: b1 :: l) = some (leNat [b0, b1], l) := by
  rw [show (b0 :: b1 :: l) = [b0, b1] ++ l from rfl, readU16le_append _ _ (by simp)]

theorem readU32le_cons (b0 b1 b2 b3 : Nat) (l : List Nat) :
    readU32le (b0 :: b1 :: b2 :: b3 :: l) = some (leNat [b0, b1, b2, b3], l) := by
  rw [show (b0 :: b1 :: b2 :: b3 :: l) = [b0, b1, b2, b3] ++ l from rfl,
    readU32le_append _ _ (by simp)]

theorem padTo4_one (p1 p2 p3 : Nat) (l : List Nat) :
    padTo4 1 (p1 :: p2 :: p3 :: l) = some l := by
  unfold padTo4
  rw [if_neg (by norm_num), show (4 : Nat) - 1 % 4 = 3 from by norm_num,
    show (p1 :: p2 :: p3 :: l) = [p1, p2, p3] ++ l from rfl,
    takeN_append _ _ _ (by simp)]
  rfl

theorem leNat_two_lt (g0 g1 : Nat) (h : g1 % 256 < 0x80) : leNat [g0, g1] < 0x8000 := by
  simp only [leNat]
  omega

theorem takeN_length_append (a b : List Nat) : takeN a.length (a ++ b) = some (a, b) :=
  takeN_append _ a b rfl

theorem decode_property_cons (enc : List Nat → List Nat) (b0 b1 : Nat) (l : List Nat) :
    decode_property enc (b0 :: b1 :: l) =
      decodePropertyAfterType enc (leNat [b0, b1]) l := by
  unfold decode_property
  rw [readU16le_cons]

theorem decodePropertyAfterType_cons (enc : List Nat → List Nat) (t b0 b1 : Nat)
    (l : List Nat) :
    decodePropertyAfterType enc t (b0 :: b1 :: l) =
      decodePropertyAfterTag enc t (leNat [b0, b1]) l := by
  unfold decodePropertyAfterType
  rw [readU16le_cons]

theorem decodePropertyAfterTag_low (enc : List Nat → List Nat) (t tag : Nat)
    (l : List Nat) (h : tag < 0x8000) :
    decodePropertyAfterTag enc t tag l = finishProp enc t tag none l := by
  unfold decodePropertyAfterTag
  rw [if_neg (by omega)]

theorem decodePropValue_boolean (enc : List Nat → List Nat) (b p1 p2 p3 : Nat)
    (rest : List Nat) (hb : b < 256) :
    decodePropValue enc .Boolean (b :: p1 :: p2 :: p3 :: rest) =
      if b = 0 then .ok (.Boolean false, rest)
      else if b = 1 then .ok (.Boolean true, rest)
      else .err (.InvalidBoolean b) := by
  unfold decodePropValue
  simp only [readU8_cons, Nat.mod_eq_of_lt hb]
  by_cases h0 : b = 0
  · simp only [h0, if_pos rfl, padTo4_one]
  · simp only [if_neg h0]
    by_cases h1 : b = 1
    · simp only [h1, if_pos rfl, padTo4_one]
    · simp only [if_neg h1]

theorem decodePropValue_other (enc : List Nat → List Nat) (c : Nat) (l : List Nat) :
    decodePropValue enc (.Other c) l =
      if 128 ≤ l.length then .panicked else .err .Io := by
  unfold decodePropValue
  by_cases h : 128 ≤ l.length
  · simp only [takeN_some h, if_pos h]
  · simp only [takeN_none (show l.length < 128 by omega), if_neg h]

theorem readPropsLoop_record (fs : Cfb) (dirPath : String) (fuel : Nat)
    (b0 b1 g0 g1 f0 f1 f2 f3 : Nat) (r3 : List Nat) :
    readPropsLoop fs dirPath (fuel + 1)
        (b0 :: b1 :: g0 :: g1 :: f0 :: f1 :: f2 :: f3 :: r3) =
      match readOneProperty fs dirPath (leNat [b0, b1]) (leNat [g0, g1])
          (leNat [f0, f1, f2, f3]) r3 with
      | .error e => .error e
      | .ok (optProp, r4) =>
        match readPropsLoop fs dirPath fuel r4 with
        | .error e => .error e
        | .ok props =>
          .ok (match optProp with
               | none => props
               | some p => p :: props) := by
  simp only [readPropsLoop, readU16le_cons, readU32le_cons]

theorem readOneProperty_inline_boolean (fs : Cfb) (dirPath : String)
    (tag flags : Nat) (v0 v1 v2 v3 v4 v5 v6 v7 : Nat) (r : List Nat) :
    readOneProperty fs dirPath 0x000B tag flags
        (v0 :: v1 :: v2 :: v3 :: v4 :: v5 :: v6 :: v7 :: r) =
      .ok (some ⟨.Boolean, tag, flags, .Boolean (decide (v0 % 256 ≠ 0))⟩, r) := by
  unfold readOneProperty
  simp only [show (v0 :: v1 :: v2 :: v3 :: v4 :: v5 :: v6 :: v7 :: r) =
      [v0, v1, v2, v3, v4, v5, v6, v7] ++ r from rfl,
    takeN_append 8 [v0, v1, v2, v3, v4, v5, v6, v7] r (by simp)]
  rfl

theorem readOneProperty_other (fs : Cfb) (dirPath : String)
    (typeU16 tag flags c : Nat) (stream : List Nat)
    (h : PropType.from_base_type typeU16 = .Other c) :
    readOneProperty fs dirPath typeU16 tag flags stream =
      .error (.InvalidPropertyType typeU16) := by
  unfold readOneProperty
  simp only [h]

/-- C2 (amended): in the TNEF property decoder a Boolean value byte of 0x00
decodes to `false`, 0x01 to `true`, and every other byte fails with
`InvalidBoolean`; the CFB inline-property reader never rejects the byte: it
decodes 0x00 as `false` and every nonzero byte as `true`. -/
theorem boolean_decoding :
    (∀ (enc : List Nat → List Nat) (g0 g1 b p1 p2 p3 : Nat) (rest : List Nat),
      g1 % 256 < 0x80 → b < 256 →
      decode_property enc (0x0B :: 0x00 :: g0 :: g1 :: b :: p1 :: p2 :: p3 :: rest) =
        if b = 0 then .ok (⟨leNat [g0, g1], none, .Boolean false⟩, rest)
        else if b = 1 then .ok (⟨leNat [g0, g1], none, .Boolean true⟩, rest)
        else .err (.InvalidBoolean b)) ∧
    (∀ (fs : Cfb) (dirPath : String) (header : List Nat) (hl : Nat)
       (g0 g1 f0 f1 f2 f3 v0 v1 v2 v3 v4 v5 v6 v7 : Nat),
      fs (dirPath ++ "/__properties_version1.0") =
        some (header ++ 0x0B :: 0x00 :: g0 :: g1 :: f0 :: f1 :: f2 :: f3 ::
          v0 :: v1 :: v2 :: v3 :: v4 :: v5 :: v6 :: v7 :: []) →
      header.length = hl →
      read_properties fs dirPath hl =
        .ok (header, [⟨.Boolean, leNat [g0, g1], leNat [f0, f1, f2, f3],
          .Boolean (decide (v0 % 256 ≠ 0))⟩])) := by
  constructor
  · intro enc g0 g1 b p1 p2 p3 rest hg hb
    rw [decode_property_cons, show leNat [0x0B, 0x00] = 0x000B from by decide,
      decodePropertyAfterType_cons,
      decodePropertyAfterTag_low _ _ _ _ (leNat_two_lt g0 g1 hg)]
    unfold finishProp
    rw [show PropType.from_base_type 0x000B = .Boolean from rfl,
      decodePropValue_boolean enc b p1 p2 p3 rest hb]
    by_cases h0 : b = 0
    · simp [h0]
    · by_cases h1 : b = 1
      · simp [h0, h1]
      · simp [h0, h1]
  · intro fs dirPath header hl g0 g1 f0 f1 f2 f3 v0 v1 v2 v3 v4 v5 v6 v7 hfs hheader
    subst hheader
    unfold read_properties
    simp only [hfs, takeN_length_append, readPropsLoop_record,
      show leNat [0x0B, 0x00] = 0x000B from by decide,
      readOneProperty_inline_boolean]
    rfl

/-- Compound file whose root property stream holds one Boolean record with
value byte 0x02 (and a zero-length header). -/
def cfbBoolFs : Cfb := fun p =>
  if p = "/__properties_version1.0" then
    some [0x0B, 0x00, 0x01, 0x00, 0, 0, 0, 0, 2, 0, 0, 0, 0, 0, 0, 0]
  else none

/-- C2 counterexample: the CFB inline reader accepts boolean byte 0x02 and
decodes it as `true`; it does not fail with `InvalidBoolean`. -/
theorem cfb_boolean_nonzero_counterexample :
    read_properties cfbBoolFs "" 0 =
      .ok ([], [⟨.Boolean, 1, 0, .Boolean true⟩]) := by rfl

/-- Witness for the amended C2 at concrete inputs: TNEF rejects byte 0x02
with `InvalidBoolean` and accepts 0x01 as `true`; CFB decodes byte 0x02 as
`true`. -/
theorem boolean_decoding_witness :
    decode_property (fun bytes => bytes) [0x0B, 0x00, 0x01, 0x00, 0x02, 0, 0, 0] =
      .err (.InvalidBoolean 2) ∧
    decode_property (fun bytes => bytes) [0x0B, 0x00, 0x01, 0x00, 0x01, 0, 0, 0] =
      .ok (⟨1, none, .Boolean true⟩, []) ∧
    read_properties cfbBoolFs "" 0 =
      .ok ([], [⟨.Boolean, leNat [0x01, 0x00], leNat [0, 0, 0, 0],
        .Boolean (decide ((2 : Nat) % 256 ≠ 0))⟩]) := by
  refine ⟨?_, ?_, ?_⟩
  · have h := boolean_decoding.1 (fun bytes => bytes) 0x01 0x00 0x02 0 0 0 []
      (by decide) (by decide)
    simpa using h
  · have h := boolean_decoding.1 (fun bytes => bytes) 0x01 0x00 0x01 0 0 0 []
      (by decide) (by decide)
    simpa [leNat] using h
  · exact boolean_decoding.2 cfbBoolFs "" [] 0 0x01 0x00 0 0 0 0 2 0 0 0 0 0 0 0
      (by rfl) rfl

/-- C4 (amended): decoding a property whose 16-bit type code maps to
`PropType::Other` never returns a value. The CFB property-stream reader
returns normally with an `InvalidPropertyType` error, but the TNEF property
decoder reads 128 bytes and then calls `panic!` (a crash), or fails with an
`Io` error when fewer than 128 bytes remain. -/
theorem other_type_behavior :
    (∀ (enc : List Nat → List Nat) (t0 t1 g0 g1 c : Nat) (l : List Nat),
      PropType.from_base_type (leNat [t0, t1]) = .Other c → g1 % 256 < 0x80 →
      decode_property enc (t0 :: t1 :: g0 :: g1 :: l) =
        if 128 ≤ l.length then .panicked else .err .Io) ∧
    (∀ (fs : Cfb) (dirPath : String) (header : List Nat) (hl : Nat)
       (t0 t1 g0 g1 f0 f1 f2 f3 c : Nat) (tail : List Nat),
      fs (dirPath ++ "/__properties_version1.0") =
        some (header ++ t0 :: t1 :: g0 :: g1 :: f0 :: f1 :: f2 :: f3 :: tail) →
      header.length = hl →
      PropType.from_base_type (leNat [t0, t1]) = .Other c →
      read_properties fs dirPath hl =
        .error (.InvalidPropertyType (leNat [t0, t1]))) := by
  constructor
  · intro enc t0 t1 g0 g1 c l ht hg
    rw [decode_property_cons, decodePropertyAfterType_cons,
      decodePropertyAfterTag_low _ _ _ _ (leNat_two_lt g0 g1 hg)]
    unfold finishProp
    rw [ht, decodePropValue_other]
    by_cases h : 128 ≤ l.length
    · simp only [if_pos h]
    · simp only [if_neg h]
  · intro fs dirPath header hl t0 t1 g0 g1 f0 f1 f2 f3 c tail hfs hheader ht
    subst hheader
    unfold read_properties
    simp only [hfs, takeN_length_append, readPropsLoop_record,
      readOneProperty_other fs dirPath _ _ _ c tail ht]

set_option maxRecDepth 8192 in
/-- C4 counterexample: on TNEF input with unknown type code 0x0008 and 128
payload bytes available, `decode_property` crashes (`panic!`) instead of
returning normally. -/
theorem other_type_crash_counterexample :
    decode_property (fun bytes => bytes)
      (0x08 :: 0x00 :: 0x01 :: 0x00 :: List.replicate 128 0) = .panicked := by rfl

/-- Compound file whose root property stream holds one record with unknown
type code 0x0008. -/
def cfbOtherFs : Cfb := fun p =>
  if p = "/__properties_version1.0" then
    some [0x08, 0x00, 0x01, 0x00, 0, 0, 0, 0]
  else none

set_option maxRecDepth 8192 in
/-- Witness for the amended C4 at concrete inputs. -/
theorem other_type_behavior_witness :
    decode_property (fun bytes => bytes)
        (0x09 :: 0x00 :: 0x01 :: 0x00 :: List.replicate 128 0) =
      (if 128 ≤ (List.replicate 128 (0 : Nat)).length then Outcome.panicked
       else Outcome.err TnefReadError.Io) ∧
    read_properties cfbOtherFs "" 0 =
      .error (.InvalidPropertyType (leNat [0x08, 0x00])) := by
  constructor
  · exact other_type_behavior.1 (fun bytes => bytes) 0x09 0x00 0x01 0x00 9
      (List.replicate 128 0) (by decide) (by decide)
  · exact other_type_behavior.2 cfbOtherFs "" [] 0 0x08 0x00 0x01 0x00 0 0 0 0 8 []
      (by rfl) rfl (by decide)

/-- C5 (evaluation of both paths): the TNEF decoder reads an `ErrorCode`
property as a 64-bit value, consuming all 8 value bytes (here yielding
0x0000000200000001 and an empty remainder), while the CFB inline reader
reads a 32-bit value from the low half of the 8-byte inline buffer (here 1).
The claim that both read 32 bits is contradicted by the TNEF path. -/
theorem errorcode_width :
    decode_property (fun bytes => bytes)
        [0x0A, 0x00, 0x01, 0x00, 1, 0, 0, 0, 2, 0, 0, 0] =
      .ok (⟨1, none, .ErrorCode 0x0000000200000001⟩, []) ∧
    readOneProperty (fun _ => none) "" 0x000A 1 0 [1, 0, 0, 0, 2, 0, 0, 0] =
      .ok (some ⟨.ErrorCode, 1, 0, .ErrorCode 1⟩, []) := by
  exact ⟨rfl, rfl⟩

end Tnef2Mime
